import Mathlib

/-!
# IWXMVM playback clock: duty-cycle pattern generator, delta scheduler, tick-delta controller

Shallow embedding of `core/src/Components/Playback.cpp`.

Conventions of the embedding

* `float` values are the rationals they denote (finite values only; NaN and the
  infinities are outside the model).  Every `float` operation of the source is the
  exact rational operation followed by `f32`, IEEE-754 binary32 round-to-nearest,
  ties-to-even (24-bit significand).  The exponent range is not bounded: the only
  quotient that can leave the binary32 range is `fps / timescale`, and it is clamped
  to `[1000, 1000000]` right away, which gives the same value either way.
* `std::size_t` is 32 bits wide (the iw3 module is an x86 build): `patternIndex`
  wraps modulo `2 ^ 32`.
* Collaborators that are not part of `Playback.cpp` (game interface, rewinding,
  capture manager, dvars, ImGui) are inputs of the embedding: their answers are read
  from a `Frame` record or from an abstract `GameInterface`, and the calls made to
  them are recorded in order.
-/

namespace IWXMVM.Components.Playback

/-! ## binary32 arithmetic -/

/-- Nearest integer to `t`, ties to the even neighbour. -/
def roundHalfEven (t : ℚ) : ℤ :=
  let f := ⌊t⌋
  if t - f < 1 / 2 then f
  else if 1 / 2 < t - f then f + 1
  else if f % 2 = 0 then f else f + 1

/-- Rounding of a rational to binary32: the significand is rounded to 24 bits
(`2 ^ (e - 23)` is the unit in the last place of the binade `[2 ^ e, 2 ^ (e + 1))`). -/
def f32 (v : ℚ) : ℚ :=
  if v = 0 then 0
  else
    let u : ℚ := (2 : ℚ) ^ (Int.log 2 |v| - 23)
    (roundHalfEven (v / u) : ℚ) * u

/-- The function `std::clamp(v, lo, hi)`. -/
def clampF (v lo hi : ℚ) : ℚ :=
  if v < lo then lo else if hi < v then hi else v

/-- Conversion `static_cast<std::size_t>(v)` of a non-negative float: truncation. -/
def toSizeT (v : ℚ) : Nat := ⌊v⌋.toNat

/-! ## GeneratePattern -/

/-- Capacity of `std::array<std::uint8_t, 1000> pattern`. -/
def patternSize : Nat := 1000

/-- Local `callCountPerSecond` of `GeneratePattern`:
`static_cast<std::size_t>(std::clamp(fps / timescale, 1000.0f, 1'000'000.0f))`.
The quotient is a finite float for `timescale ≠ 0`; a division by zero (an infinity or
NaN in the source) is outside the model, and statements about the value of the rate are
made for `timescale ≠ 0`. -/
def callCountPerSecond (fps timescale : ℚ) : Nat :=
  toSizeT (clampF (f32 (fps / timescale)) 1000 1000000)

/-- Local `onesCount` of `GeneratePattern`:
`static_cast<size_t>(pattern.size() / (callCountPerSecond / static_cast<float>(pattern.size())))`;
both integer operands are converted to `float` and both divisions are `float` divisions. -/
def onesCountOf (callCount : Nat) : Nat :=
  toSizeT (f32 (f32 (patternSize : ℚ) / f32 (f32 (callCount : ℚ) / f32 (patternSize : ℚ))))

/-- Local `zerosCount` of `GeneratePattern`: `pattern.size() - onesCount`
(`onesCount ≤ pattern.size()` for every clamped call count, so the subtraction does not wrap). -/
def zerosCountOf (callCount : Nat) : Nat := patternSize - onesCountOf callCount

/-- The `for` loop of `GeneratePattern`, with `n` iterations left and the running
counters `zeros` and `ones`; the result lists the steps written, in index order. -/
def fillPattern (onesCount zerosCount : Nat) : Nat → Nat → Nat → List Nat
  | 0, _, _ => []
  | n + 1, zeros, ones =>
    if ones * zerosCount < zeros * onesCount then
      1 :: fillPattern onesCount zerosCount n zeros (ones + 1)
    else
      0 :: fillPattern onesCount zerosCount n (zeros + 1) ones

/-- The pattern `GeneratePattern` writes once `callCountPerSecond` is known
(the loop starts with `i = 0, zeros = 1, ones = 1`). -/
def patternOfRate (callCount : Nat) : List Nat :=
  fillPattern (onesCountOf callCount) (zerosCountOf callCount) patternSize 1 1

/-- The function `GeneratePattern(pattern, fps, timescale)`: the new contents of `pattern`. -/
def GeneratePattern (fps timescale : ℚ) : List Nat :=
  patternOfRate (callCountPerSecond fps timescale)

/-- Bound of the even-distribution property:
`ceil(max(onesCount, zerosCount) / min(onesCount, zerosCount)) + 1`. -/
def runBound (onesCount zerosCount : Nat) : Nat :=
  (max onesCount zerosCount + min onesCount zerosCount - 1) / min onesCount zerosCount + 1

/-! ## CalculatePlaybackDelta -/

/-- What the collaborators report during one call of `CalculatePlaybackDelta`. -/
structure Frame where
  /-- argument `gameMsec` -/
  gameMsec : Int
  /-- result of `Mod::GetGameInterface()->IsTickFrozen()` -/
  frozenTick : Option Nat
  /-- result of `Components::Rewinding::CheckSkipForward()` -/
  checkSkipForward : Bool
  /-- result of `captureManager.IsCapturing()` -/
  isCapturing : Bool
  /-- result of `captureManager.OnGameFrame()` -/
  onGameFrame : Int
  /-- result of `Components::Rewinding::IsRewinding()` -/
  isRewinding : Bool
  /-- result of `IsPaused()` -/
  isPaused : Bool
  /-- field `floating_point` of `GetDvar("timescale")`, when the dvar exists -/
  timescale : Option ℚ
  /-- field `int32` of `GetDvar("com_maxfps")`, when the dvar exists -/
  com_maxfps : Option Int
  /-- value of `ImGui::GetIO().Framerate` -/
  framerate : ℚ
  deriving DecidableEq

/-- The function-local statics of `CalculatePlaybackDelta`. -/
structure PatternStatics where
  lastTimeScale : ℚ
  lastMaxFps : Int
  pattern : List Nat
  patternIndex : Nat
  deriving DecidableEq

/-- Result of one call of `CalculatePlaybackDelta`. -/
structure Outcome where
  /-- returned value -/
  ret : Int
  /-- arguments of the `UpdateFrozenTick` calls made, in order -/
  frozenWrites : List (Bool × Int)
  /-- arguments `(fps, timescale)` of the `GeneratePattern` calls made, in order -/
  generateCalls : List (ℚ × ℚ)
  /-- the statics after the call (`none`: not yet initialised) -/
  statics : Option PatternStatics
  deriving DecidableEq

/-- Modulus of `std::size_t` arithmetic. -/
def sizeMod : Nat := 2 ^ 32

/-- Values the statics take when control first passes their declarations. -/
def firstStatics (timescale : ℚ) (maxFps : Int) : PatternStatics :=
  { lastTimeScale := timescale, lastMaxFps := maxFps,
    pattern := List.replicate patternSize 0, patternIndex := 0 }

/-- Local `frameRate` of the branch taken when `timescale` or `com_maxfps` changed
(`std::min` and `std::max` against `static_cast<float>(com_maxfps)`). -/
def selectFrameRate (lastMaxFps maxFps : Int) (framerate : ℚ) : ℚ :=
  if lastMaxFps > maxFps then min framerate (f32 (maxFps : ℚ))
  else if lastMaxFps < maxFps then max framerate (f32 (maxFps : ℚ))
  else framerate

/-- Regeneration part of the pattern-driven path: the statics after the
`if / else if` around the two `GeneratePattern` calls, and the calls made. -/
def regenerate (st : PatternStatics) (timescale : ℚ) (maxFps : Int) (framerate : ℚ) :
    PatternStatics × List (ℚ × ℚ) :=
  if st.lastTimeScale ≠ timescale ∨ st.lastMaxFps ≠ maxFps then
    let frameRate := selectFrameRate st.lastMaxFps maxFps framerate
    ({ lastTimeScale := timescale, lastMaxFps := maxFps,
       pattern := GeneratePattern frameRate timescale, patternIndex := 0 },
     [(frameRate, timescale)])
  else if st.patternIndex % 1000 = 0 then
    ({ st with pattern := GeneratePattern framerate timescale }, [(framerate, timescale)])
  else (st, [])

/-- Expression `pattern[patternIndex++ % 1000]`: the step read and the statics afterwards. -/
def readStep (st : PatternStatics) : Nat × PatternStatics :=
  (st.pattern.getD (st.patternIndex % 1000) 0,
   { st with patternIndex := (st.patternIndex + 1) % sizeMod })

/-- The function `CalculatePlaybackDelta(gameMsec)`, on the statics `s`. -/
def CalculatePlaybackDelta (s : Option PatternStatics) (f : Frame) : Outcome :=
  let useFrozenTick := f.frozenTick.isSome
  if !useFrozenTick && f.checkSkipForward then
    { ret := 0, frozenWrites := [], generateCalls := [], statics := s }
  else if f.isCapturing then
    if useFrozenTick then
      { ret := 0, frozenWrites := [(false, f.onGameFrame)], generateCalls := [], statics := s }
    else
      { ret := f.onGameFrame, frozenWrites := [], generateCalls := [], statics := s }
  else if !useFrozenTick && f.isRewinding then
    { ret := 50, frozenWrites := [], generateCalls := [], statics := s }
  else if !useFrozenTick && f.isPaused then
    { ret := 0, frozenWrites := [], generateCalls := [], statics := s }
  else
    let direct : Outcome :=
      if useFrozenTick then
        { ret := 0, frozenWrites := [(f.isPaused, f.gameMsec)], generateCalls := [], statics := s }
      else
        { ret := f.gameMsec, frozenWrites := [], generateCalls := [], statics := s }
    match f.timescale with
    | none => direct
    | some timescale =>
      if f.gameMsec > 1 ∨ timescale ≥ 1 then direct
      else
        match f.com_maxfps with
        | none => direct
        | some maxFps =>
          let st := s.getD (firstStatics timescale maxFps)
          let r := regenerate st timescale maxFps f.framerate
          let v := readStep r.1
          if useFrozenTick then
            { ret := 0, frozenWrites := [(f.isPaused, (v.1 : Int))],
              generateCalls := r.2, statics := some v.2 }
          else
            { ret := (v.1 : Int), frozenWrites := [], generateCalls := r.2, statics := some v.2 }

/-- Outcomes of consecutive calls of `CalculatePlaybackDelta`, one per frame, in order. -/
def runFrames (s : Option PatternStatics) : List Frame → List Outcome
  | [] => []
  | f :: fs =>
    let o := CalculatePlaybackDelta s f
    o :: runFrames o.statics fs

/-- Statics after consecutive calls of `CalculatePlaybackDelta`. -/
def staticsAfter (s : Option PatternStatics) : List Frame → Option PatternStatics
  | [] => s
  | f :: fs => staticsAfter (CalculatePlaybackDelta s f).statics fs

/-- The statics `s` can be reached from program start. -/
def Reachable (s : Option PatternStatics) : Prop :=
  ∃ frames : List Frame, s = staticsAfter none frames

/-- The frame takes the pattern-driven path with the dvar values `timescale` and `maxFps`
and the measured frame rate `fps`: none of the earlier rules of `CalculatePlaybackDelta` applies. -/
def PatternDriven (timescale : ℚ) (maxFps : Int) (fps : ℚ) (f : Frame) : Prop :=
  (f.frozenTick.isSome = true ∨
    (f.checkSkipForward = false ∧ f.isRewinding = false ∧ f.isPaused = false)) ∧
  f.isCapturing = false ∧ f.gameMsec ≤ 1 ∧
  f.timescale = some timescale ∧ timescale < 1 ∧ f.com_maxfps = some maxFps ∧ f.framerate = fps

/-- The advance selected by a call: the returned value, or with a frozen tick the
values handed to `UpdateFrozenTick`. -/
def advance (f : Frame) (o : Outcome) : Int :=
  if f.frozenTick.isSome then (o.frozenWrites.map Prod.snd).sum else o.ret

/-- Every frame of the list takes the pattern-driven path, finds `timescale` or `com_maxfps`
different from the value last observed, and regenerates a pattern with `onesCount ≤ N / 2`. -/
def ChangesWithLowDuty : Option PatternStatics → List Frame → Prop
  | _, [] => True
  | s, f :: fs =>
    (∃ st timescale maxFps,
        s = some st ∧ PatternDriven timescale maxFps f.framerate f ∧
        (st.lastTimeScale ≠ timescale ∨ st.lastMaxFps ≠ maxFps) ∧
        onesCountOf (callCountPerSecond (selectFrameRate st.lastMaxFps maxFps f.framerate) timescale)
          ≤ patternSize / 2) ∧
    ChangesWithLowDuty (CalculatePlaybackDelta s f).statics fs

/-- Every step stored in the statics is `0` or `1`. -/
def BinaryPattern (s : Option PatternStatics) : Prop :=
  ∀ st, s = some st → ∀ x ∈ st.pattern, x = 0 ∨ x = 1

/-- The frame `f` without a frozen tick and without the skip, rewind and pause overrides;
the collaborators otherwise report the same. -/
def Frame.withoutOverrides (f : Frame) : Frame :=
  { f with frozenTick := none, checkSkipForward := false, isRewinding := false,
           isPaused := false }

/-- The step `pattern[patternIndex % 1000]` that the pattern-driven path reads in this call,
after the regeneration checks. -/
def currentStep (s : Option PatternStatics) (timescale : ℚ) (maxFps : Int) (framerate : ℚ) : Nat :=
  (readStep (regenerate (s.getD (firstStatics timescale maxFps)) timescale maxFps framerate).1).1

/-- A frame of 16 ms with nothing active and no dvar configured. -/
def plainFrame : Frame :=
  { gameMsec := 16, frozenTick := none, checkSkipForward := false, isCapturing := false,
    onGameFrame := 0, isRewinding := false, isPaused := false, timescale := none,
    com_maxfps := none, framerate := 60 }

/-- Capture (20 ms per output frame) and rewind both active, with an exact-position skip due. -/
def captureRewindSkipFrame : Frame :=
  { gameMsec := 16, frozenTick := none, checkSkipForward := true, isCapturing := true,
    onGameFrame := 20, isRewinding := true, isPaused := false, timescale := none,
    com_maxfps := none, framerate := 60 }

/-- Capture (20 ms per output frame) and rewind both active, with a frozen tick at 100. -/
def captureRewindFrozenFrame : Frame :=
  { gameMsec := 16, frozenTick := some 100, checkSkipForward := false, isCapturing := true,
    onGameFrame := 20, isRewinding := true, isPaused := false, timescale := none,
    com_maxfps := none, framerate := 60 }

/-- Capture (20 ms per output frame) and rewind both active, nothing else. -/
def captureRewindFrame : Frame :=
  { gameMsec := 16, frozenTick := none, checkSkipForward := false, isCapturing := true,
    onGameFrame := 20, isRewinding := true, isPaused := false, timescale := none,
    com_maxfps := none, framerate := 60 }

/-- Paused playback with a frozen tick at 100 and a raw delta of 16 ms. -/
def pausedFrozenFrame : Frame :=
  { gameMsec := 16, frozenTick := some 100, checkSkipForward := true, isCapturing := false,
    onGameFrame := 0, isRewinding := true, isPaused := true, timescale := none,
    com_maxfps := none, framerate := 60 }

/-- Statics holding the configuration `timescale`, `maxFps`, the pattern `pattern` and the
cursor `index`. -/
def stableStatics (timescale : ℚ) (maxFps : Int) (pattern : List Nat) (index : Nat) :
    PatternStatics :=
  { lastTimeScale := timescale, lastMaxFps := maxFps, pattern := pattern, patternIndex := index }

/-- Closed form of a pattern-driven call at cursor `index` when the configuration is the one
last observed and `pattern` is the pattern generated for it. -/
def stableOutcome (timescale : ℚ) (maxFps : Int) (fps : ℚ) (pattern : List Nat) (index : Nat)
    (f : Frame) : Outcome :=
  { ret := if f.frozenTick.isSome then 0 else (pattern.getD (index % 1000) 0 : Int),
    frozenWrites :=
      if f.frozenTick.isSome then [(f.isPaused, (pattern.getD (index % 1000) 0 : Int))] else [],
    generateCalls := if index % 1000 = 0 then [(fps, timescale)] else [],
    statics := some (stableStatics timescale maxFps pattern (index + 1)) }

/-- A slow-motion frame: `timescale` 0.5, `com_maxfps` 250, measured frame rate 250. -/
def slowFrame : Frame :=
  { gameMsec := 1, frozenTick := none, checkSkipForward := false, isCapturing := false,
    onGameFrame := 0, isRewinding := false, isPaused := false, timescale := some (1 / 2),
    com_maxfps := some 250, framerate := 250 }

/-- A slow-motion frame: `timescale` 0.5, `com_maxfps` 1000, measured frame rate 500.25. -/
def halfSpeedFrame : Frame :=
  { gameMsec := 1, frozenTick := none, checkSkipForward := false, isCapturing := false,
    onGameFrame := 0, isRewinding := false, isPaused := false, timescale := some (1 / 2),
    com_maxfps := some 1000, framerate := 2001 / 4 }

/-! ## SkipForward, SetTickDelta, HandleImportedFrozenTickLogic -/

/-- A call made to a collaborator of `Playback.cpp`. -/
inductive Call where
  /-- The call `Mod::GetGameInterface()->UpdateFrozenTick(isPaused, value)`. -/
  | updateFrozenTick (isPaused : Bool) (value : Int)
  /-- The call `Mod::GetGameInterface()->ToggleFrozenTick(tick)`; no argument is `none`. -/
  | toggleFrozenTick (tick : Option Nat)
  /-- The store `*realtime = value` into `cls.realtime`. -/
  | writeRealtime (value : Int)
  /-- The call `Rewinding::RewindBy(ticks)`. -/
  | rewindBy (ticks : Int)
  deriving DecidableEq

/-- Fields of `Types::DemoInfo` read by `HandleImportedFrozenTickLogic`. -/
structure DemoInfo where
  currentTick : Nat
  frozenTick : Option Nat
  deriving DecidableEq

/-- The collaborators behind `Mod::GetGameInterface()` and `Rewinding`, over a state `σ`
of the game: the queries `Playback.cpp` makes and the effect of each call on the game. -/
structure GameInterface (σ : Type) where
  /-- Result of `IsTickFrozen()`. -/
  IsTickFrozen : σ → Option Nat
  /-- Result of `GetDemoInfo()`. -/
  GetDemoInfo : σ → DemoInfo
  /-- the value read through `GetPlaybackDataAddresses().cls.realtime` -/
  realtime : σ → Int
  /-- effect of a call on the game -/
  perform : Call → σ → σ

/-- Declarations of `Playback.hpp` used by `Playback.cpp`. -/
structure PlaybackHeader where
  /-- constant `REWIND_DEADZONE` -/
  REWIND_DEADZONE : Int
  /-- default argument of `SkipForward` for `ignoreFrozenTick` -/
  ignoreFrozenTickDefault : Bool

/-- State seen by the tick-delta controller: the game, the global `isPlaybackPaused`,
and the collaborator calls made so far (oldest first). -/
structure World (σ : Type) where
  game : σ
  isPlaybackPaused : Bool
  calls : List Call

/-- Makes a collaborator call: the game changes and the call is recorded. -/
def World.call {σ : Type} (G : GameInterface σ) (w : World σ) (c : Call) : World σ :=
  { w with game := G.perform c w.game, calls := w.calls ++ [c] }

/-- Reinterpretation of a 32-bit pattern as `std::int32_t`. -/
def toInt32 (n : Int) : Int := (n + 2 ^ 31) % 2 ^ 32 - 2 ^ 31

/-- The function `SkipForward(ticks, ignoreFrozenTick)`. -/
def SkipForward {σ : Type} (G : GameInterface σ) (w : World σ) (ticks : Int)
    (ignoreFrozenTick : Bool) : World σ :=
  if !ignoreFrozenTick && (G.IsTickFrozen w.game).isSome then
    w.call G (Call.updateFrozenTick false ticks)
  else
    w.call G (Call.writeRealtime (toInt32 (G.realtime w.game + ticks)))

/-- The function `SetTickDelta(value, ignoreDeadzone)`. -/
def SetTickDelta {σ : Type} (G : GameInterface σ) (H : PlaybackHeader) (w : World σ)
    (value : Int) (ignoreDeadzone : Bool) : World σ :=
  if value > 0 then SkipForward G w value H.ignoreFrozenTickDefault
  else if value < -H.REWIND_DEADZONE ∨ (value < 0 ∧ ignoreDeadzone = true) then
    w.call G (Call.rewindBy value)
  else w

/-- Modelled from the spec: a game whose state is the frozen tick, the current tick and
`cls.realtime`; `ToggleFrozenTick` deactivates an active frozen tick and otherwise pins the
given tick (the current tick when none is given).  `GameInterface` implementations are not
part of the sources; this one serves to evaluate the controller on concrete inputs. -/
structure SimGame where
  frozen : Option Nat
  currentTick : Nat
  realtime : Int
  deriving DecidableEq

/-- Modelled from the spec: effect of the collaborator calls on `SimGame`
(`ToggleFrozenTick`, the store to `cls.realtime`; the accumulator and the rewind engine
are outside this state). -/
def SimGame.perform (c : Call) (g : SimGame) : SimGame :=
  match c with
  | Call.toggleFrozenTick t =>
    match g.frozen with
    | some _ => { g with frozen := none }
    | none => { g with frozen := some (t.getD g.currentTick) }
  | Call.writeRealtime v => { g with realtime := v }
  | _ => g

/-- Modelled from the spec: the `GameInterface` of `SimGame`. -/
def simInterface : GameInterface SimGame :=
  { IsTickFrozen := fun g => g.frozen
    GetDemoInfo := fun g => { currentTick := g.currentTick, frozenTick := g.frozen }
    realtime := fun g => g.realtime
    perform := SimGame.perform }

/-- Header values of the deadzone scenario: `REWIND_DEADZONE = 5`. -/
def deadzoneFive : PlaybackHeader :=
  { REWIND_DEADZONE := 5, ignoreFrozenTickDefault := false }

/-- A world of `SimGame`: no frozen tick, current tick 100, playback running. -/
def simWorld : World SimGame :=
  { game := { frozen := none, currentTick := 100, realtime := 5000 },
    isPlaybackPaused := false, calls := [] }

theorem roundHalfEven_cases (t : ℚ) :
    roundHalfEven t = ⌊t⌋ ∧ t - ⌊t⌋ ≤ 1/2 ∨ roundHalfEven t = ⌊t⌋ + 1 ∧ 1/2 ≤ t - ⌊t⌋ := by
  unfold roundHalfEven
  simp only
  by_cases h1 : t - ⌊t⌋ < 1/2
  · left; rw [if_pos h1]; exact ⟨rfl, le_of_lt h1⟩
  · rw [if_neg h1]
    by_cases h2 : 1/2 < t - ⌊t⌋
    · right; rw [if_pos h2]; exact ⟨rfl, le_of_lt h2⟩
    · rw [if_neg h2]
      have h3 : t - ⌊t⌋ = 1/2 := le_antisymm (not_lt.mp h2) (not_lt.mp h1)
      by_cases h4 : ⌊t⌋ % 2 = 0
      · left; rw [if_pos h4]; exact ⟨rfl, le_of_eq h3⟩
      · right; rw [if_neg h4]; exact ⟨rfl, le_of_eq h3.symm⟩

theorem roundHalfEven_sub_le (t : ℚ) : |(roundHalfEven t : ℚ) - t| ≤ 1/2 := by
  have hf := Int.floor_le t
  have hl := Int.lt_floor_add_one t
  rw [abs_le]
  rcases roundHalfEven_cases t with ⟨h, hb⟩ | ⟨h, hb⟩
  · rw [h]; constructor <;> linarith
  · rw [h]; push_cast; constructor <;> linarith

theorem le_roundHalfEven (t : ℚ) (n : ℤ) (h : (n : ℚ) ≤ t) : n ≤ roundHalfEven t := by
  have hn : n ≤ ⌊t⌋ := Int.le_floor.mpr h
  rcases roundHalfEven_cases t with ⟨h1, _⟩ | ⟨h1, _⟩ <;> omega

theorem roundHalfEven_intCast (n : ℤ) : roundHalfEven (n : ℚ) = n := by
  unfold roundHalfEven
  simp

theorem roundHalfEven_eq_of_abs_lt (t : ℚ) (m : ℤ) (h : |t - m| < 1/2) : roundHalfEven t = m := by
  rw [abs_lt] at h
  have hf := Int.floor_le t
  have hl := Int.lt_floor_add_one t
  rcases roundHalfEven_cases t with ⟨h1, hb⟩ | ⟨h1, hb⟩
  · rw [h1]
    have a1 : ((⌊t⌋ : ℤ) : ℚ) < m + 1 := by linarith
    have a2 : (m : ℚ) < ⌊t⌋ + 1 := by linarith
    have b1 : ⌊t⌋ < m + 1 := by exact_mod_cast a1
    have b2 : m < ⌊t⌋ + 1 := by exact_mod_cast a2
    omega
  · rw [h1]
    have a1 : ((⌊t⌋ : ℤ) : ℚ) + 1 < m + 1 := by linarith
    have a2 : (m : ℚ) < ⌊t⌋ + 1 + 1 := by linarith
    have b1 : ⌊t⌋ + 1 < m + 1 := by exact_mod_cast a1
    have b2 : m < ⌊t⌋ + 1 + 1 := by exact_mod_cast a2
    omega

theorem f32_pos_eq (v : ℚ) (hv : 0 < v) :
    f32 v = (roundHalfEven (v / (2:ℚ) ^ (Int.log 2 v - 23)) : ℚ) * (2:ℚ) ^ (Int.log 2 v - 23) := by
  unfold f32
  rw [if_neg (ne_of_gt hv), abs_of_pos hv]

theorem ulp_le (v : ℚ) (hv : 0 < v) : (2:ℚ) ^ (Int.log 2 v - 23) * 2 ^ 23 ≤ v := by
  have h := Int.zpow_log_le_self (b := 2) (r := v) (by norm_num) hv
  have : (2:ℚ) ^ (Int.log 2 v - 23) * 2 ^ 23 = (2:ℚ) ^ (Int.log 2 v) := by
    rw [zpow_sub₀ (by norm_num : (2:ℚ) ≠ 0)]
    have : (2:ℚ) ^ (23:ℤ) = 2 ^ 23 := by norm_cast
    rw [this]; field_simp
  rw [this]; exact_mod_cast h

theorem f32_abs_sub_le (v : ℚ) (hv : 0 < v) : |f32 v - v| ≤ v / 2 ^ 24 := by
  rw [f32_pos_eq v hv]
  set u : ℚ := (2:ℚ) ^ (Int.log 2 v - 23) with hu
  have hupos : 0 < u := zpow_pos (by norm_num) _
  have h1 := roundHalfEven_sub_le (v / u)
  have h2 := ulp_le v hv
  have : (roundHalfEven (v / u) : ℚ) * u - v = ((roundHalfEven (v / u) : ℚ) - v / u) * u := by
    field_simp
  rw [this, abs_mul, abs_of_pos hupos]
  rw [le_div_iff₀ (by norm_num)]
  calc |(roundHalfEven (v / u) : ℚ) - v / u| * u * 2 ^ 24
      ≤ 1/2 * u * 2^24 := by gcongr
    _ = u * 2^23 := by ring
    _ ≤ v := h2

theorem ulp_inv_nat (v : ℚ) (hv : 0 < v) (hlt : v < 2 ^ 24) :
    ∃ j : ℕ, (2:ℚ) ^ (Int.log 2 v - 23) = 1 / 2 ^ j := by
  have h : Int.log 2 v < 24 := by
    rw [← Int.lt_zpow_iff_log_lt (by norm_num) hv]
    exact_mod_cast hlt
  refine ⟨(23 - Int.log 2 v).toNat, ?_⟩
  have e : Int.log 2 v - 23 = -(((23 - Int.log 2 v).toNat : ℕ) : ℤ) := by omega
  rw [e, zpow_neg, zpow_natCast]; simp

theorem le_f32_of_natCast_le (k : ℕ) (v : ℚ) (hk : (k : ℚ) ≤ v) (hv : 0 < v) (hlt : v < 2 ^ 24) :
    (k : ℚ) ≤ f32 v := by
  rw [f32_pos_eq v hv]
  obtain ⟨j, hj⟩ := ulp_inv_nat v hv hlt
  rw [hj]
  have hpos : (0:ℚ) < 2 ^ j := by positivity
  have h1 : (((k * 2 ^ j : ℕ) : ℤ) : ℚ) ≤ v / (1 / 2 ^ j) := by
    push_cast
    rw [div_div_eq_mul_div, div_one]
    gcongr
  have h2 := le_roundHalfEven _ _ h1
  have h3 : (((k * 2 ^ j : ℕ) : ℤ) : ℚ) ≤ (roundHalfEven (v / (1 / 2 ^ j)) : ℚ) := by exact_mod_cast h2
  push_cast at h3
  rw [mul_one_div, le_div_iff₀ hpos]
  exact h3

theorem f32_dyadic (m j : ℕ) (hm : m < 2 ^ 24) : f32 ((m : ℚ) / 2 ^ j) = (m : ℚ) / 2 ^ j := by
  rcases Nat.eq_zero_or_pos m with h0 | hpos
  · subst h0; simp [f32]
  have hpj : (0:ℚ) < 2 ^ j := by positivity
  have hv : (0:ℚ) < (m : ℚ) / 2 ^ j := by positivity
  rw [f32_pos_eq _ hv]
  have hlog : Int.log 2 ((m : ℚ) / 2 ^ j) < 24 - j := by
    rw [← Int.lt_zpow_iff_log_lt (by norm_num) hv]
    have : ((2:ℕ):ℚ) ^ ((24:ℤ) - j) = 2 ^ 24 / 2 ^ j := by
      rw [zpow_sub₀ (by norm_num)]; norm_cast
    rw [this]
    have : (m:ℚ) < 2 ^ 24 := by exact_mod_cast hm
    gcongr
  set e := Int.log 2 ((m : ℚ) / 2 ^ j) with he
  have hu : (2:ℚ) ^ (e - 23) = 1 / (2 ^ ((23 - e - j).toNat) * 2 ^ j) := by
    have e1 : e - 23 = -((((23 - e - j).toNat + j : ℕ)) : ℤ) := by omega
    rw [e1, zpow_neg, zpow_natCast, pow_add]; simp
  rw [hu]
  have hq : (m : ℚ) / 2 ^ j / (1 / (2 ^ ((23 - e - j).toNat) * 2 ^ j))
      = (((m * 2 ^ ((23 - e - j).toNat) : ℕ) : ℤ) : ℚ) := by
    push_cast; field_simp; ring
  rw [hq, roundHalfEven_intCast]
  push_cast; field_simp; ring

theorem f32_natCast (n : ℕ) (hn : n < 2 ^ 24) : f32 (n : ℚ) = n := by
  have := f32_dyadic n 0 hn
  simpa using this

theorem f32_eq_of_bounds (v : ℚ) (e m : ℤ) (hv : 0 < v) (h1 : (2:ℚ) ^ e ≤ v) (h2 : v < (2:ℚ) ^ (e + 1))
    (hm : |v / (2:ℚ) ^ (e - 23) - m| < 1/2) : f32 v = m * (2:ℚ) ^ (e - 23) := by
  have hlog : Int.log 2 v = e := by
    have a : e ≤ Int.log 2 v := by
      rw [← Int.zpow_le_iff_le_log (by norm_num) hv]; exact_mod_cast h1
    have b : Int.log 2 v < e + 1 := by
      rw [← Int.lt_zpow_iff_log_lt (by norm_num) hv]; exact_mod_cast h2
    omega
  rw [f32_pos_eq v hv, hlog, roundHalfEven_eq_of_abs_lt _ _ hm]

theorem f32_patternSize : f32 (patternSize : ℚ) = 1000 := by
  have := f32_natCast 1000 (by norm_num)
  simpa [patternSize] using this

set_option maxRecDepth 100000 in
theorem divisor_not_125 : ∀ k < 1001, 1 ≤ k → 1000000 % k = 0 → ¬ (125 ∣ 1000000 / k) → k = 625 := by
  decide

theorem f32_1600 : f32 (1000 / f32 (1600 / 1000)) = 625 := by
  have h1 : f32 (1600 / 1000) = 13421773/8388608 := by
    have := f32_eq_of_bounds (1600/1000) 0 13421773 (by norm_num) (by norm_num) (by norm_num)
      (by rw [abs_lt]; constructor <;> norm_num)
    rw [this]; norm_num
  rw [h1]
  have := f32_eq_of_bounds (1000 / (13421773/8388608)) 9 10240000 (by norm_num) (by norm_num) (by norm_num)
      (by rw [abs_lt]; constructor <;> norm_num)
  rw [this]; norm_num

theorem toSizeT_eq (v : ℚ) (k : ℕ) (h1 : (k : ℚ) ≤ v) (h2 : v < k + 1) : toSizeT v = k := by
  unfold toSizeT
  have : ⌊v⌋ = (k : ℤ) := by
    rw [Int.floor_eq_iff]; push_cast; exact ⟨h1, h2⟩
  rw [this]; simp

theorem f32_pos (v : ℚ) (hv : 0 < v) : 0 < f32 v := by
  have h := f32_abs_sub_le v hv
  rw [abs_le] at h
  have : v / 2 ^ 24 < v := by
    rw [div_lt_iff₀ (by norm_num)]; nlinarith
  linarith [h.1]

theorem onesCountOf_eq (c : ℕ) (h1 : 1000 ≤ c) (h2 : c ≤ 1000000) :
    onesCountOf c = 1000000 / c := by
  unfold onesCountOf
  rw [f32_patternSize, f32_natCast c (by omega)]
  set k := 1000000 / c with hk
  have hcpos : 0 < c := by omega
  have hkc : k * c ≤ 1000000 := Nat.div_mul_le_self _ _
  have hkc2 : 1000000 < (k + 1) * c := by
    have := (Nat.div_lt_iff_lt_mul (x := 1000000) (y := k + 1) hcpos).mp (by omega)
    exact this
  have hk1 : k ≤ 1000 := by
    by_contra hcon
    have : 1001 * c ≤ k * c := Nat.mul_le_mul_right c (by omega)
    omega
  -- rational versions
  have qc1 : (1000:ℚ) ≤ c := by exact_mod_cast h1
  have qc2 : (c:ℚ) ≤ 1000000 := by exact_mod_cast h2
  have qkc : (k:ℚ) * c ≤ 1000000 := by exact_mod_cast hkc
  have qkc2 : (1000001:ℚ) ≤ (k + 1) * c := by
    have : 1000001 ≤ (k + 1) * c := hkc2
    exact_mod_cast this
  have qk0 : (0:ℚ) ≤ k := by positivity
  set x : ℚ := f32 ((c:ℚ) / 1000) with hx
  have hv0 : (0:ℚ) < (c:ℚ) / 1000 := by positivity
  have hxerr := f32_abs_sub_le _ hv0
  rw [← hx, abs_le] at hxerr
  have hxpos : 0 < x := f32_pos _ hv0
  have hx_lo : (c:ℚ) / 1000 * (1 - 1 / 2 ^ 24) ≤ x := by linarith [hxerr.1]
  have hx_hi : x ≤ (c:ℚ) / 1000 * (1 + 1 / 2 ^ 24) := by linarith [hxerr.2]
  have hx_half : (1:ℚ) / 2 ≤ x := by
    have : (1:ℚ) ≤ (c:ℚ) / 1000 := by rw [le_div_iff₀ (by norm_num)]; linarith
    nlinarith
  have hy'pos : (0:ℚ) < 1000 / x := by positivity
  have hy'lt : (1000:ℚ) / x < 2 ^ 24 := by
    rw [div_lt_iff₀ hxpos]; nlinarith
  have hyerr := f32_abs_sub_le _ hy'pos
  rw [abs_le] at hyerr
  have hy'x : 1000 / x * x = 1000 := by field_simp
  apply toSizeT_eq
  · -- lower bound
    by_cases hr : k * c = 1000000
    · by_cases h125 : 125 ∣ c
      · obtain ⟨m, hm⟩ := h125
        have hxe : x = (c:ℚ) / 1000 := by
          rw [hx]
          have e1 : (c:ℚ) / 1000 = (m:ℚ) / 2 ^ 3 := by
            rw [hm]; push_cast; ring
          rw [e1]
          exact f32_dyadic m 3 (by omega)
        apply le_f32_of_natCast_le k _ _ hy'pos hy'lt
        rw [le_div_iff₀ hxpos, hxe]
        have : (k:ℚ) * c = 1000000 := by exact_mod_cast hr
        linarith
      · have hkpos : 1 ≤ k := by
          rcases Nat.eq_zero_or_pos k with h0 | h0
          · rw [h0] at hr; omega
          · exact h0
        have hmod : 1000000 % k = 0 := by
          rw [← hr]; exact Nat.mul_mod_right k c
        have hce : 1000000 / k = c := by
          rw [← hr]; exact Nat.mul_div_cancel_left c (by omega)
        have hk625 := divisor_not_125 k (by omega) hkpos hmod (by rw [hce]; exact h125)
        have hc1600 : c = 1600 := by rw [← hce, hk625]
        rw [hx, hc1600, hk625]
        have := f32_1600
        push_cast
        rw [this]
    · have hr1 : k * c + 1 ≤ 1000000 := by omega
      have qr1 : (k:ℚ) * c + 1 ≤ 1000000 := by exact_mod_cast hr1
      apply le_f32_of_natCast_le k _ _ hy'pos hy'lt
      rw [le_div_iff₀ hxpos]
      have : (k:ℚ) * x ≤ k * ((c:ℚ) / 1000 * (1 + 1 / 2 ^ 24)) := by gcongr
      nlinarith
  · -- upper bound
    by_contra hcon
    rw [not_lt] at hcon
    have hyle : f32 (1000 / x) ≤ 1000 / x * (1 + 1 / 2 ^ 24) := by linarith [hyerr.2]
    have a1 : ((k:ℚ) + 1) * x ≤ 1000 * (1 + 1 / 2 ^ 24) := by
      calc ((k:ℚ) + 1) * x ≤ f32 (1000 / x) * x := by gcongr
        _ ≤ 1000 / x * (1 + 1 / 2 ^ 24) * x := by gcongr
        _ = 1000 * (1 + 1 / 2 ^ 24) := by rw [mul_right_comm, hy'x]
    have a2 : ((k:ℚ) + 1) * ((c:ℚ) / 1000 * (1 - 1 / 2 ^ 24)) ≤ ((k:ℚ) + 1) * x := by gcongr
    nlinarith

/-! ## Properties of the generator loop -/

theorem fillPattern_length (O Z n zeros ones : Nat) :
    (fillPattern O Z n zeros ones).length = n := by
  induction n generalizing zeros ones with
  | zero => simp [fillPattern]
  | succ n ih =>
    unfold fillPattern
    split <;> simp [ih]

theorem fillPattern_mem (O Z n zeros ones x : Nat) (h : x ∈ fillPattern O Z n zeros ones) :
    x = 0 ∨ x = 1 := by
  induction n generalizing zeros ones with
  | zero => simp [fillPattern] at h
  | succ n ih =>
    unfold fillPattern at h
    split at h
    · rcases List.mem_cons.mp h with h1 | h1
      · exact Or.inr h1
      · exact ih _ _ h1
    · rcases List.mem_cons.mp h with h1 | h1
      · exact Or.inl h1
      · exact ih _ _ h1

/-- With `a` ones and `b` zeros written so far and `a + b + n = O + Z`, the loop writes
exactly the `O - a` ones that are still missing. -/
theorem fillPattern_count (O Z n a b : Nat) (ha : a ≤ O) (hb : b ≤ Z) (hn : a + b + n = O + Z) :
    (fillPattern O Z n (b + 1) (a + 1)).count 1 = O - a := by
  induction n generalizing a b with
  | zero => simp [fillPattern]; omega
  | succ n ih =>
    unfold fillPattern
    split
    · rename_i hc
      have ha1 : a + 1 ≤ O := by
        by_contra hcon
        have hao : a = O := by omega
        have hbz : b + 1 ≤ Z := by omega
        have h1 : (b + 1) * O ≤ Z * O := Nat.mul_le_mul_right O hbz
        have h2 : Z * O ≤ (a + 1) * Z := by
          rw [hao, Nat.mul_comm Z O]; exact Nat.mul_le_mul_right Z (by omega)
        omega
      rw [List.count_cons_self, ih (a + 1) b ha1 hb (by omega)]
      omega
    · rename_i hc
      have hb1 : b + 1 ≤ Z := by
        by_contra hcon
        have hbz : b = Z := by omega
        have hao : a + 1 ≤ O := by omega
        have h1 : (a + 1) * Z ≤ O * Z := Nat.mul_le_mul_right Z hao
        have h2 : (b + 1) * O = O * Z + O := by rw [hbz]; ring
        omega
      rw [List.count_cons_of_ne (by decide), ih a (b + 1) ha hb1 (by omega)]

theorem sum_eq_count_one (l : List Nat) (h : ∀ x ∈ l, x = 0 ∨ x = 1) : l.sum = l.count 1 := by
  induction l with
  | nil => simp
  | cons x xs ih =>
    have hx := h x (List.mem_cons_self x xs)
    have ih1 := ih (fun y hy => h y (List.mem_cons_of_mem x hy))
    rcases hx with hx | hx
    · subst hx; simp [ih1]
    · subst hx; simp [ih1]; omega

/-- The last step written is a `1`: the loop never writes the last missing `1` early
(`a = O` only once `b = Z`). -/
theorem fillPattern_getLast (O Z n a b : Nat) (ha : a ≤ O) (hb : b ≤ Z)
    (hinv : a = O → b = Z) (hn : a + b + (n + 1) = O + Z) :
    (fillPattern O Z (n + 1) (b + 1) (a + 1)).getD n 0 = 1 := by
  induction n generalizing a b with
  | zero =>
    unfold fillPattern
    have hlt : (a + 1) * Z < (b + 1) * O := by
      have hao : a + 1 = O := by
        by_contra hcon
        have : a = O := by omega
        have := hinv this
        omega
      have hbz : b = Z := by omega
      rw [hao, hbz]
      have : O * Z < (Z + 1) * O := by
        have : (Z + 1) * O = O * Z + O := by ring
        omega
      exact this
    rw [if_pos hlt]; simp
  | succ n ih =>
    unfold fillPattern
    split
    · rename_i hc
      have ha1 : a + 1 ≤ O := by
        by_contra hcon
        have hao : a = O := by omega
        have := hinv hao
        omega
      have hinv1 : a + 1 = O → b = Z := by
        intro hao
        rw [hao] at hc
        have h3 : Z < b + 1 := by
          by_contra hcon
          have : (b + 1) * O ≤ Z * O := Nat.mul_le_mul_right O (by omega)
          have : O * Z = Z * O := Nat.mul_comm O Z
          omega
        omega
      rw [List.getD_cons_succ]
      exact ih (a + 1) b ha1 hb hinv1 (by omega)
    · rename_i hc
      have hb1 : b + 1 ≤ Z := by
        by_contra hcon
        have hbz : b = Z := by omega
        have hao : a + 1 ≤ O := by omega
        have h1 : (a + 1) * Z ≤ O * Z := Nat.mul_le_mul_right Z hao
        have h2 : (b + 1) * O = O * Z + O := by rw [hbz]; ring
        omega
      have hinv1 : a = O → b + 1 = Z := by
        intro hao
        have := hinv hao
        omega
      rw [List.getD_cons_succ]
      exact ih a (b + 1) ha hb1 hinv1 (by omega)

theorem fillPattern_head (O Z n : Nat) :
    (fillPattern O Z (n + 1) 1 1).getD 0 0 = 1 ↔ Z < O := by
  unfold fillPattern
  by_cases h : 1 * Z < 1 * O
  · rw [if_pos h]; simp; omega
  · rw [if_neg h]; simp; omega

/-! ## Runs of identical steps -/

theorem fillPattern_zero_run (O Z n a b L : Nat) (post : List Nat)
    (h : fillPattern O Z n (b + 1) (a + 1) = List.replicate (L + 1) 0 ++ post) :
    (b + L + 1) * O ≤ (a + 1) * Z := by
  induction L generalizing n b with
  | zero =>
    cases n with
    | zero => simp [fillPattern] at h
    | succ n =>
      unfold fillPattern at h
      split at h
      · simp [List.replicate] at h
      · rename_i hc
        simpa using Nat.le_of_not_lt hc
  | succ L ih =>
    cases n with
    | zero => simp [fillPattern] at h
    | succ n =>
      unfold fillPattern at h
      split at h
      · simp [List.replicate] at h
      · rw [List.replicate_succ, List.cons_append] at h
        have ht := (List.cons.inj h).2
        have := ih n (b + 1) ht
        have e : b + 1 + L + 1 = b + (L + 1) + 1 := by omega
        rw [e] at this
        exact this

theorem fillPattern_one_run (O Z n a b L : Nat) (post : List Nat)
    (h : fillPattern O Z n (b + 1) (a + 1) = List.replicate (L + 1) 1 ++ post) :
    (a + L + 1) * Z < (b + 1) * O := by
  induction L generalizing n a with
  | zero =>
    cases n with
    | zero => simp [fillPattern] at h
    | succ n =>
      unfold fillPattern at h
      split at h
      · rename_i hc
        simpa using hc
      · simp [List.replicate] at h
  | succ L ih =>
    cases n with
    | zero => simp [fillPattern] at h
    | succ n =>
      unfold fillPattern at h
      split at h
      · rw [List.replicate_succ, List.cons_append] at h
        have ht := (List.cons.inj h).2
        have := ih n (a + 1) ht
        have e : a + 1 + L + 1 = a + (L + 1) + 1 := by omega
        rw [e] at this
        exact this
      · simp [List.replicate] at h

/-- A block of `L + 1` equal steps anywhere in the output of the loop: the counters are
balanced at its start (`a * Z < (b + 1) * O` and `b * O ≤ (a + 1) * Z`), so the block
is short. -/
theorem fillPattern_block (O Z L v : Nat) (post : List Nat) (pre : List Nat) :
    ∀ n a b, a * Z < (b + 1) * O → b * O ≤ (a + 1) * Z →
      fillPattern O Z n (b + 1) (a + 1) = pre ++ (List.replicate (L + 1) v ++ post) →
      (v = 0 ∧ L * O < Z) ∨ (v = 1 ∧ L * Z < O) := by
  induction pre with
  | nil =>
    intro n a b h1 h2 h
    rw [List.nil_append] at h
    have hv : v = 0 ∨ v = 1 := by
      apply fillPattern_mem O Z n (b + 1) (a + 1) v
      rw [h, List.replicate_succ]; simp
    rcases hv with hv | hv
    · left
      subst hv
      have h3 := fillPattern_zero_run O Z n a b L post h
      refine ⟨rfl, ?_⟩
      have e1 : (b + L + 1) * O = (b + 1) * O + L * O := by ring
      have e2 : (a + 1) * Z = a * Z + Z := by ring
      omega
    · right
      subst hv
      have h3 := fillPattern_one_run O Z n a b L post h
      refine ⟨rfl, ?_⟩
      have e1 : (a + L + 1) * Z = (a + 1) * Z + L * Z := by ring
      have e2 : (b + 1) * O = b * O + O := by ring
      omega
  | cons x pre ih =>
    intro n a b h1 h2 h
    cases n with
    | zero => simp [fillPattern] at h
    | succ n =>
      unfold fillPattern at h
      split at h
      · rename_i hc
        have ht := (List.cons.inj h).2
        refine ih n (a + 1) b hc ?_ ht
        have e : (a + 1 + 1) * Z = (a + 1) * Z + Z := by ring
        omega
      · rename_i hc
        have ht := (List.cons.inj h).2
        refine ih n a (b + 1) ?_ (Nat.le_of_not_lt hc) ht
        have e : (b + 1 + 1) * O = (b + 1) * O + O := by ring
        omega

theorem le_runBound (x y L : Nat) (hx : 1 ≤ x) (h : L * x < y) :
    L + 1 ≤ (max x y + min x y - 1) / min x y + 1 := by
  apply Nat.succ_le_succ
  rcases Nat.le_total x y with hxy | hxy
  · rw [max_eq_right hxy, min_eq_left hxy]
    rw [Nat.le_div_iff_mul_le (by omega)]
    omega
  · have hL : L = 0 := by
      rcases Nat.eq_zero_or_pos L with h0 | h0
      · exact h0
      · have : 1 * x ≤ L * x := Nat.mul_le_mul_right x h0
        omega
    rw [hL]; exact Nat.zero_le _

theorem runBound_comm (x y : Nat) : runBound x y = runBound y x := by
  unfold runBound
  rw [max_comm, min_comm]

/-! ## The generated pattern -/

theorem onesCountOf_pos (c : Nat) (h1 : 1000 ≤ c) (h2 : c ≤ 1000000) : 1 ≤ onesCountOf c := by
  rw [onesCountOf_eq c h1 h2]
  exact (Nat.le_div_iff_mul_le (by omega)).mpr (by omega)

theorem onesCountOf_le (c : Nat) (h1 : 1000 ≤ c) (h2 : c ≤ 1000000) :
    onesCountOf c ≤ patternSize := by
  rw [onesCountOf_eq c h1 h2]
  have : 1000000 / c < 1001 := (Nat.div_lt_iff_lt_mul (by omega)).mpr (by omega)
  unfold patternSize
  omega

theorem ones_add_zeros (c : Nat) (h1 : 1000 ≤ c) (h2 : c ≤ 1000000) :
    onesCountOf c + zerosCountOf c = patternSize := by
  have := onesCountOf_le c h1 h2
  unfold zerosCountOf
  omega

theorem toSizeT_clampF_range (v : ℚ) :
    1000 ≤ toSizeT (clampF v 1000 1000000) ∧ toSizeT (clampF v 1000 1000000) ≤ 1000000 := by
  have hc : (1000 : ℚ) ≤ clampF v 1000 1000000 ∧ clampF v 1000 1000000 ≤ 1000000 := by
    unfold clampF
    split
    · constructor <;> norm_num
    · split
      · constructor <;> norm_num
      · constructor <;> linarith
  unfold toSizeT
  have h1 : (1000 : ℤ) ≤ ⌊clampF v 1000 1000000⌋ := Int.le_floor.mpr (by exact_mod_cast hc.1)
  have h2 : ⌊clampF v 1000 1000000⌋ ≤ (1000000 : ℤ) := by
    have : ⌊clampF v 1000 1000000⌋ ≤ ⌊((1000000 : ℤ) : ℚ)⌋ :=
      Int.floor_le_floor (by exact_mod_cast hc.2)
    rwa [Int.floor_intCast] at this
  omega

theorem callCountPerSecond_range (fps timescale : ℚ) :
    1000 ≤ callCountPerSecond fps timescale ∧ callCountPerSecond fps timescale ≤ 1000000 :=
  toSizeT_clampF_range _

theorem patternOfRate_length (c : Nat) : (patternOfRate c).length = patternSize :=
  fillPattern_length _ _ _ _ _

theorem patternOfRate_mem (c x : Nat) (h : x ∈ patternOfRate c) : x = 0 ∨ x = 1 :=
  fillPattern_mem _ _ _ _ _ x h

theorem patternOfRate_count (c : Nat) (h1 : 1000 ≤ c) (h2 : c ≤ 1000000) :
    (patternOfRate c).count 1 = 1000000 / c := by
  unfold patternOfRate
  have h := fillPattern_count (onesCountOf c) (zerosCountOf c) patternSize 0 0
    (Nat.zero_le _) (Nat.zero_le _) (by rw [ones_add_zeros c h1 h2]; simp)
  rw [h, onesCountOf_eq c h1 h2]; rfl

theorem patternOfRate_sum (c : Nat) (h1 : 1000 ≤ c) (h2 : c ≤ 1000000) :
    (patternOfRate c).sum = 1000000 / c := by
  rw [sum_eq_count_one _ (patternOfRate_mem c), patternOfRate_count c h1 h2]

/-- C1 (duty-cycle sum): for every call rate `c` with `1000 ≤ c ≤ 1000000` the pattern
written by `GeneratePattern` has `N = 1000` steps, exactly `N * N / c` of them are `1`,
every step is `1` or `0`, and at least one step is `1`, so the final assertion
`accumulate(pattern) > 0` holds. -/
theorem generatePattern_ones_count (c : Nat) (h1 : 1000 ≤ c) (h2 : c ≤ 1000000) :
    (patternOfRate c).length = patternSize ∧
    (patternOfRate c).count 1 = patternSize * patternSize / c ∧
    (∀ x ∈ patternOfRate c, x = 1 ∨ x = 0) ∧
    1 ≤ (patternOfRate c).count 1 ∧
    0 < (patternOfRate c).sum := by
  have hcount := patternOfRate_count c h1 h2
  have hpos : 1 ≤ 1000000 / c := (Nat.le_div_iff_mul_le (by omega)).mpr (by omega)
  refine ⟨patternOfRate_length c, ?_, ?_, ?_, ?_⟩
  · rw [hcount]; rfl
  · intro x hx
    exact (patternOfRate_mem c x hx).symm
  · rw [hcount]; exact hpos
  · rw [patternOfRate_sum c h1 h2]; exact hpos

theorem generatePattern_ones_count_witness :
    (patternOfRate 50000).length = patternSize ∧
    (patternOfRate 50000).count 1 = patternSize * patternSize / 50000 ∧
    (∀ x ∈ patternOfRate 50000, x = 1 ∨ x = 0) ∧
    1 ≤ (patternOfRate 50000).count 1 ∧
    0 < (patternOfRate 50000).sum :=
  generatePattern_ones_count 50000 (by decide) (by decide)

/-- C2 (even distribution): for every call rate `c` with `1000 ≤ c ≤ 1000000` whose
`onesCount` and `zerosCount = N - onesCount` are both non-zero, a block of `L` consecutive
identical steps anywhere in the generated pattern has
`L ≤ ceil(max(onesCount, zerosCount) / min(onesCount, zerosCount)) + 1`. -/
theorem generatePattern_run_bound (c : Nat) (h1 : 1000 ≤ c) (h2 : c ≤ 1000000)
    (hO : onesCountOf c ≠ 0) (hZ : zerosCountOf c ≠ 0)
    (pre post : List Nat) (v L : Nat)
    (h : patternOfRate c = pre ++ (List.replicate L v ++ post)) :
    onesCountOf c + zerosCountOf c = patternSize ∧
    L ≤ runBound (onesCountOf c) (zerosCountOf c) := by
  refine ⟨ones_add_zeros c h1 h2, ?_⟩
  cases L with
  | zero => exact Nat.zero_le _
  | succ L =>
    unfold patternOfRate at h
    have hO1 : 1 ≤ onesCountOf c := Nat.one_le_iff_ne_zero.mpr hO
    have hZ1 : 1 ≤ zerosCountOf c := Nat.one_le_iff_ne_zero.mpr hZ
    have hb := fillPattern_block (onesCountOf c) (zerosCountOf c) L v post pre patternSize 0 0
      (by omega) (by omega) h
    rcases hb with ⟨_, hb⟩ | ⟨_, hb⟩
    · exact le_runBound (onesCountOf c) (zerosCountOf c) L hO1 hb
    · rw [runBound_comm]
      exact le_runBound (zerosCountOf c) (onesCountOf c) L hZ1 hb

theorem zerosCountOf_eq (c : Nat) (h1 : 1000 ≤ c) (h2 : c ≤ 1000000) :
    zerosCountOf c = 1000 - 1000000 / c := by
  unfold zerosCountOf
  rw [onesCountOf_eq c h1 h2]
  rfl

theorem patternOfRate_head_zero (c : Nat) (h : ¬ zerosCountOf c < onesCountOf c) :
    patternOfRate c =
      [] ++ (List.replicate 1 0 ++ fillPattern (onesCountOf c) (zerosCountOf c) 999 2 1) := by
  unfold patternOfRate
  show fillPattern (onesCountOf c) (zerosCountOf c) (999 + 1) 1 1 = _
  rw [fillPattern]
  simp [h]

theorem generatePattern_run_bound_witness :
    onesCountOf 500000 + zerosCountOf 500000 = patternSize ∧
    1 ≤ runBound (onesCountOf 500000) (zerosCountOf 500000) :=
  generatePattern_run_bound 500000 (by decide) (by decide)
    (by rw [onesCountOf_eq 500000 (by decide) (by decide)]; decide)
    (by rw [zerosCountOf_eq 500000 (by decide) (by decide)]; decide)
    [] (fillPattern (onesCountOf 500000) (zerosCountOf 500000) 999 2 1) 0 1
    (patternOfRate_head_zero 500000
      (by rw [zerosCountOf_eq 500000 (by decide) (by decide),
            onesCountOf_eq 500000 (by decide) (by decide)]; decide))

/-! ## The statics of CalculatePlaybackDelta -/

theorem getD_zero_or_one (l : List Nat) (i : Nat) (h : ∀ x ∈ l, x = 0 ∨ x = 1) :
    l.getD i 0 = 0 ∨ l.getD i 0 = 1 := by
  rcases Nat.lt_or_ge i l.length with hi | hi
  · rw [List.getD_eq_getElem l 0 hi]
    exact h _ (List.getElem_mem hi)
  · left; exact List.getD_eq_default l 0 hi

theorem GeneratePattern_mem (fps timescale : ℚ) (x : Nat) (h : x ∈ GeneratePattern fps timescale) :
    x = 0 ∨ x = 1 :=
  patternOfRate_mem _ x h

theorem regenerate_binary (st : PatternStatics) (timescale : ℚ) (maxFps : Int) (framerate : ℚ)
    (h : ∀ x ∈ st.pattern, x = 0 ∨ x = 1) :
    ∀ x ∈ (regenerate st timescale maxFps framerate).1.pattern, x = 0 ∨ x = 1 := by
  unfold regenerate
  split
  · exact fun x hx => GeneratePattern_mem _ _ x hx
  · split
    · exact fun x hx => GeneratePattern_mem _ _ x hx
    · exact h

theorem firstStatics_binary (timescale : ℚ) (maxFps : Int) :
    ∀ x ∈ (firstStatics timescale maxFps).pattern, x = 0 ∨ x = 1 := by
  intro x hx
  unfold firstStatics at hx
  simp at hx
  exact Or.inl hx.2

theorem getD_binary (s : Option PatternStatics) (timescale : ℚ) (maxFps : Int)
    (h : BinaryPattern s) :
    ∀ x ∈ (s.getD (firstStatics timescale maxFps)).pattern, x = 0 ∨ x = 1 := by
  cases s with
  | none => exact firstStatics_binary timescale maxFps
  | some st => exact h st rfl

/-- The pattern-driven path, taken by a frame that passes all earlier rules. -/
theorem calculatePlaybackDelta_patternDriven (s : Option PatternStatics) (f : Frame)
    (timescale : ℚ) (maxFps : Int) (fps : ℚ) (h : PatternDriven timescale maxFps fps f) :
    CalculatePlaybackDelta s f =
      if f.frozenTick.isSome then
        { ret := 0,
          frozenWrites := [(f.isPaused,
            ((readStep (regenerate (s.getD (firstStatics timescale maxFps))
              timescale maxFps fps).1).1 : Int))],
          generateCalls := (regenerate (s.getD (firstStatics timescale maxFps))
              timescale maxFps fps).2,
          statics := some (readStep (regenerate (s.getD (firstStatics timescale maxFps))
              timescale maxFps fps).1).2 }
      else
        { ret := ((readStep (regenerate (s.getD (firstStatics timescale maxFps))
              timescale maxFps fps).1).1 : Int),
          frozenWrites := [],
          generateCalls := (regenerate (s.getD (firstStatics timescale maxFps))
              timescale maxFps fps).2,
          statics := some (readStep (regenerate (s.getD (firstStatics timescale maxFps))
              timescale maxFps fps).1).2 } := by
  obtain ⟨h1, h2, h3, h4, h5, h6, h7⟩ := h
  have hg : ¬ (f.gameMsec > 1 ∨ timescale ≥ 1) := by
    intro hc
    rcases hc with hc | hc
    · omega
    · exact absurd h5 (not_lt.mpr hc)
  unfold CalculatePlaybackDelta
  rcases h1 with h1 | ⟨h1a, h1b, h1c⟩
  · simp [h1, h2, h4, h6, h7, hg]
  · cases hfz : f.frozenTick.isSome <;> simp [hfz, h1a, h1b, h1c, h2, h4, h6, h7, hg]

theorem calculatePlaybackDelta_statics (s : Option PatternStatics) (f : Frame) :
    (CalculatePlaybackDelta s f).statics = s ∨
    ∃ timescale maxFps, (CalculatePlaybackDelta s f).statics =
      some (readStep (regenerate (s.getD (firstStatics timescale maxFps))
        timescale maxFps f.framerate).1).2 := by
  unfold CalculatePlaybackDelta
  simp only
  repeat' split
  all_goals first
    | exact Or.inl rfl
    | exact Or.inr ⟨_, _, rfl⟩

theorem calculatePlaybackDelta_binary (s : Option PatternStatics) (f : Frame)
    (h : BinaryPattern s) : BinaryPattern (CalculatePlaybackDelta s f).statics := by
  rcases calculatePlaybackDelta_statics s f with h1 | ⟨timescale, maxFps, h1⟩
  · rw [h1]; exact h
  · rw [h1]
    intro st hst x hx
    simp only [Option.some.injEq] at hst
    subst hst
    exact regenerate_binary (s.getD (firstStatics timescale maxFps)) timescale
      maxFps f.framerate (getD_binary s timescale maxFps h) x hx

theorem staticsAfter_binary (frames : List Frame) :
    ∀ s, BinaryPattern s → BinaryPattern (staticsAfter s frames) := by
  induction frames with
  | nil => intro s h; exact h
  | cons f fs ih =>
    intro s h
    exact ih _ (calculatePlaybackDelta_binary s f h)

theorem reachable_binary (s : Option PatternStatics) (h : Reachable s) : BinaryPattern s := by
  obtain ⟨frames, hs⟩ := h
  rw [hs]
  apply staticsAfter_binary
  intro st hst
  cases hst

theorem reachable_none : Reachable none := ⟨[], rfl⟩

/-! ## The decision policy -/

theorem currentStep_binary (s : Option PatternStatics) (timescale : ℚ) (maxFps : Int)
    (framerate : ℚ) (hs : BinaryPattern s) :
    currentStep s timescale maxFps framerate = 0 ∨ currentStep s timescale maxFps framerate = 1 := by
  unfold currentStep readStep
  exact getD_zero_or_one _ _
    (regenerate_binary _ timescale maxFps framerate (getD_binary s timescale maxFps hs))

theorem calculatePlaybackDelta_patternDriven_ret (s : Option PatternStatics) (f : Frame)
    (timescale : ℚ) (maxFps : Int) (fps : ℚ) (h : PatternDriven timescale maxFps fps f)
    (hf : f.frozenTick = none) :
    (CalculatePlaybackDelta s f).ret = (currentStep s timescale maxFps fps : Int) := by
  rw [calculatePlaybackDelta_patternDriven s f timescale maxFps fps h]
  simp [hf, currentStep]

/-- C3 (decision table): when no frozen tick is active, `CalculatePlaybackDelta` returns the
value of the first rule that applies, in the order skip due -> 0, capture -> `OnGameFrame()`,
rewind -> 50, paused -> 0, raw delta > 1 or `timescale` missing or `timescale ≥ 1` -> raw delta,
`com_maxfps` missing -> raw delta, otherwise the pattern step at the cursor, which is 0 or 1;
`UpdateFrozenTick` is not called; a raw delta of 16 with nothing active and no `timescale`
returns 16. -/
theorem calculatePlaybackDelta_decision_table (s : Option PatternStatics) (f : Frame)
    (hs : Reachable s) (hf : f.frozenTick = none) :
    (CalculatePlaybackDelta s f).frozenWrites = [] ∧
    (f.checkSkipForward = true → (CalculatePlaybackDelta s f).ret = 0) ∧
    (f.checkSkipForward = false → f.isCapturing = true →
      (CalculatePlaybackDelta s f).ret = f.onGameFrame) ∧
    (f.checkSkipForward = false → f.isCapturing = false → f.isRewinding = true →
      (CalculatePlaybackDelta s f).ret = 50) ∧
    (f.checkSkipForward = false → f.isCapturing = false → f.isRewinding = false →
      f.isPaused = true → (CalculatePlaybackDelta s f).ret = 0) ∧
    (f.checkSkipForward = false → f.isCapturing = false → f.isRewinding = false →
      f.isPaused = false →
      ((f.gameMsec > 1 ∨ f.timescale = none ∨ ∃ t, f.timescale = some t ∧ t ≥ 1) →
        (CalculatePlaybackDelta s f).ret = f.gameMsec) ∧
      (f.com_maxfps = none → (CalculatePlaybackDelta s f).ret = f.gameMsec) ∧
      (∀ t m, f.gameMsec ≤ 1 → f.timescale = some t → t < 1 → f.com_maxfps = some m →
        (CalculatePlaybackDelta s f).ret = (currentStep s t m f.framerate : Int) ∧
        ((CalculatePlaybackDelta s f).ret = 0 ∨ (CalculatePlaybackDelta s f).ret = 1))) ∧
    (f.gameMsec = 16 → f.checkSkipForward = false → f.isCapturing = false →
      f.isRewinding = false → f.isPaused = false → f.timescale = none →
      (CalculatePlaybackDelta s f).ret = 16) := by
  refine ⟨?_, ?_, ?_, ?_, ?_, ?_, ?_⟩
  · unfold CalculatePlaybackDelta
    simp only [hf]
    repeat' split
    all_goals first
      | rfl
      | simp_all
  · intro h1
    simp [CalculatePlaybackDelta, hf, h1]
  · intro h1 h2
    simp [CalculatePlaybackDelta, hf, h1, h2]
  · intro h1 h2 h3
    simp [CalculatePlaybackDelta, hf, h1, h2, h3]
  · intro h1 h2 h3 h4
    simp [CalculatePlaybackDelta, hf, h1, h2, h3, h4]
  · intro h1 h2 h3 h4
    refine ⟨?_, ?_, ?_⟩
    · intro h5
      rcases h5 with h5 | h5 | ⟨t, h5, h6⟩
      · cases hts : f.timescale <;> simp [CalculatePlaybackDelta, hf, h1, h2, h3, h4, h5, hts]
      · simp [CalculatePlaybackDelta, hf, h1, h2, h3, h4, h5]
      · simp [CalculatePlaybackDelta, hf, h1, h2, h3, h4, h5, h6]
    · intro h5
      cases hts : f.timescale with
      | none => simp [CalculatePlaybackDelta, hf, h1, h2, h3, h4, h5, hts]
      | some t =>
        by_cases hg : f.gameMsec > 1 ∨ t ≥ 1
        · simp [CalculatePlaybackDelta, hf, h1, h2, h3, h4, h5, hts, hg]
        · simp [CalculatePlaybackDelta, hf, h1, h2, h3, h4, h5, hts, hg]
    · intro t m h5 h6 h7 h8
      have hpd : PatternDriven t m f.framerate f :=
        ⟨Or.inr ⟨h1, h3, h4⟩, h2, h5, h6, h7, h8, rfl⟩
      have hret := calculatePlaybackDelta_patternDriven_ret s f t m f.framerate hpd hf
      refine ⟨hret, ?_⟩
      rw [hret]
      rcases currentStep_binary s t m f.framerate (reachable_binary s hs) with h0 | h0
      · left; rw [h0]; rfl
      · right; rw [h0]; rfl
  · intro h0 h1 h2 h3 h4 h5
    simp [CalculatePlaybackDelta, hf, h1, h2, h3, h4, h5, h0]

theorem calculatePlaybackDelta_decision_table_witness :
    (CalculatePlaybackDelta none plainFrame).frozenWrites = [] ∧
    (CalculatePlaybackDelta none plainFrame).ret = 16 :=
  ⟨(calculatePlaybackDelta_decision_table none plainFrame reachable_none rfl).1,
   (calculatePlaybackDelta_decision_table none plainFrame reachable_none rfl).2.2.2.2.2.2
     rfl rfl rfl rfl rfl rfl⟩

/-- C4, as stated, fails: with capture and rewind both active the call returns 0, not the
capture's 20 ms, when an exact-position skip is due and also when a frozen tick is active. -/
theorem capture_outranks_rewind_counterexample :
    (captureRewindSkipFrame.isCapturing = true ∧ captureRewindSkipFrame.isRewinding = true ∧
      (CalculatePlaybackDelta none captureRewindSkipFrame).ret = 0 ∧
      (CalculatePlaybackDelta none captureRewindSkipFrame).ret
        ≠ captureRewindSkipFrame.onGameFrame) ∧
    (captureRewindFrozenFrame.isCapturing = true ∧ captureRewindFrozenFrame.isRewinding = true ∧
      (CalculatePlaybackDelta none captureRewindFrozenFrame).ret = 0 ∧
      (CalculatePlaybackDelta none captureRewindFrozenFrame).ret
        ≠ captureRewindFrozenFrame.onGameFrame) := by
  decide

/-- C4 (amended): with capture and rewind both active, `CalculatePlaybackDelta` returns the
capture's `OnGameFrame()` duration whenever no frozen tick is active and no exact-position
skip is due (the rewind rule's 50 ms is not selected); with a frozen tick active it returns 0
and hands the `OnGameFrame()` duration to `UpdateFrozenTick`; with no frozen tick and a skip
due it returns 0. -/
theorem capture_outranks_rewind (s : Option PatternStatics) (f : Frame)
    (hc : f.isCapturing = true) (_hr : f.isRewinding = true) :
    (f.frozenTick = none → f.checkSkipForward = false →
      (CalculatePlaybackDelta s f).ret = f.onGameFrame ∧
      (CalculatePlaybackDelta s f).frozenWrites = []) ∧
    (f.frozenTick.isSome = true →
      (CalculatePlaybackDelta s f).ret = 0 ∧
      (CalculatePlaybackDelta s f).frozenWrites = [(false, f.onGameFrame)]) ∧
    (f.frozenTick = none → f.checkSkipForward = true →
      (CalculatePlaybackDelta s f).ret = 0 ∧
      (CalculatePlaybackDelta s f).frozenWrites = []) := by
  refine ⟨?_, ?_, ?_⟩
  · intro h1 h2
    simp [CalculatePlaybackDelta, h1, h2, hc]
  · intro h1
    simp [CalculatePlaybackDelta, h1, hc]
  · intro h1 h2
    simp [CalculatePlaybackDelta, h1, h2]

theorem capture_outranks_rewind_witness :
    (CalculatePlaybackDelta none captureRewindFrame).ret = 20 ∧
    (CalculatePlaybackDelta none captureRewindFrame).frozenWrites = [] :=
  (capture_outranks_rewind none captureRewindFrame rfl rfl).1 rfl rfl

/-- C5 (pause with a frozen tick): when playback is paused and a frozen tick is active,
`CalculatePlaybackDelta` returns 0 and calls `UpdateFrozenTick` exactly once, with the value
the call would return without the frozen tick and without the skip, rewind and pause
overrides: the capture duration, the raw delta, or the pattern step (0 or 1); the flag
passed is the pause flag, except that the capture path passes `false`; the statics change as
they would in that call. -/
theorem paused_frozen_delegates (s : Option PatternStatics) (f : Frame) (hs : Reachable s)
    (hp : f.isPaused = true) (hz : f.frozenTick.isSome = true) :
    (CalculatePlaybackDelta s f).ret = 0 ∧
    (CalculatePlaybackDelta s f).frozenWrites =
      [(!f.isCapturing, (CalculatePlaybackDelta s f.withoutOverrides).ret)] ∧
    (CalculatePlaybackDelta s f).statics = (CalculatePlaybackDelta s f.withoutOverrides).statics ∧
    (f.isCapturing = true → (CalculatePlaybackDelta s f.withoutOverrides).ret = f.onGameFrame) ∧
    (f.isCapturing = false →
      (f.gameMsec > 1 ∨ f.timescale = none ∨ (∃ t, f.timescale = some t ∧ t ≥ 1) ∨
        f.com_maxfps = none) →
      (CalculatePlaybackDelta s f.withoutOverrides).ret = f.gameMsec) ∧
    (∀ t m, f.isCapturing = false → f.gameMsec ≤ 1 → f.timescale = some t → t < 1 →
      f.com_maxfps = some m →
      (CalculatePlaybackDelta s f.withoutOverrides).ret = (currentStep s t m f.framerate : Int) ∧
      (currentStep s t m f.framerate = 0 ∨ currentStep s t m f.framerate = 1)) := by
  have hbin := reachable_binary s hs
  by_cases hc : f.isCapturing = true
  · refine ⟨?_, ?_, ?_, ?_, ?_, ?_⟩
    · simp [CalculatePlaybackDelta, hz, hc]
    · simp [CalculatePlaybackDelta, Frame.withoutOverrides, hp, hz, hc]
    · simp [CalculatePlaybackDelta, Frame.withoutOverrides, hp, hz, hc]
    · intro _
      simp [CalculatePlaybackDelta, Frame.withoutOverrides, hc]
    · intro h; exact absurd hc (by simp [h])
    · intro t m h; exact absurd hc (by simp [h])
  · have hc0 : f.isCapturing = false := by simpa using hc
    cases hts : f.timescale with
    | none =>
      refine ⟨?_, ?_, ?_, ?_, ?_, ?_⟩
      · simp [CalculatePlaybackDelta, hz, hc0, hts]
      · simp [CalculatePlaybackDelta, Frame.withoutOverrides, hp, hz, hc0, hts]
      · simp [CalculatePlaybackDelta, Frame.withoutOverrides, hp, hz, hc0, hts]
      · intro h; exact absurd h hc
      · intro _ _
        simp [CalculatePlaybackDelta, Frame.withoutOverrides, hc0, hts]
      · intro t m _ _ h; cases h
    | some ts =>
      by_cases hg : f.gameMsec > 1 ∨ ts ≥ 1
      · refine ⟨?_, ?_, ?_, ?_, ?_, ?_⟩
        · simp [CalculatePlaybackDelta, hz, hc0, hts, hg]
        · simp [CalculatePlaybackDelta, Frame.withoutOverrides, hp, hz, hc0, hts, hg]
        · simp [CalculatePlaybackDelta, Frame.withoutOverrides, hp, hz, hc0, hts, hg]
        · intro h; exact absurd h hc
        · intro _ _
          simp [CalculatePlaybackDelta, Frame.withoutOverrides, hc0, hts, hg]
        · intro t m _ h1 h2 h3
          simp only [Option.some.injEq] at h2
          subst h2
          rcases hg with hg | hg
          · omega
          · exact absurd h3 (not_lt.mpr hg)
      · cases hm : f.com_maxfps with
        | none =>
          refine ⟨?_, ?_, ?_, ?_, ?_, ?_⟩
          · simp [CalculatePlaybackDelta, hz, hc0, hts, hg, hm]
          · simp [CalculatePlaybackDelta, Frame.withoutOverrides, hp, hz, hc0, hts, hg, hm]
          · simp [CalculatePlaybackDelta, Frame.withoutOverrides, hp, hz, hc0, hts, hg, hm]
          · intro h; exact absurd h hc
          · intro _ _
            simp [CalculatePlaybackDelta, Frame.withoutOverrides, hc0, hts, hg, hm]
          · intro t m _ _ _ _ h; cases h
        | some mf =>
          refine ⟨?_, ?_, ?_, ?_, ?_, ?_⟩
          · simp [CalculatePlaybackDelta, hz, hc0, hts, hg, hm]
          · simp [CalculatePlaybackDelta, Frame.withoutOverrides, hp, hz, hc0, hts, hg, hm]
          · simp [CalculatePlaybackDelta, Frame.withoutOverrides, hp, hz, hc0, hts, hg, hm]
          · intro h; exact absurd h hc
          · intro _ h
            rcases h with h | h | ⟨t, h1, h2⟩ | h
            · exact absurd (Or.inl h) hg
            · cases h
            · simp only [Option.some.injEq] at h1
              subst h1
              exact absurd (Or.inr h2) hg
            · cases h
          · intro t m _ _ h2 _ h4
            simp only [Option.some.injEq] at h2 h4
            subst h2; subst h4
            refine ⟨?_, currentStep_binary s ts mf f.framerate hbin⟩
            simp [CalculatePlaybackDelta, Frame.withoutOverrides, hc0, hts, hg, hm, currentStep]

theorem paused_frozen_delegates_witness :
    (CalculatePlaybackDelta none pausedFrozenFrame).ret = 0 ∧
    (CalculatePlaybackDelta none pausedFrozenFrame).frozenWrites =
      [(!pausedFrozenFrame.isCapturing,
        (CalculatePlaybackDelta none pausedFrozenFrame.withoutOverrides).ret)] ∧
    (CalculatePlaybackDelta none pausedFrozenFrame.withoutOverrides).ret = 16 :=
  ⟨(paused_frozen_delegates none pausedFrozenFrame reachable_none rfl rfl).1,
   (paused_frozen_delegates none pausedFrozenFrame reachable_none rfl rfl).2.1,
   (paused_frozen_delegates none pausedFrozenFrame reachable_none rfl rfl).2.2.2.2.1 rfl
     (Or.inl (by decide))⟩

/-! ## Consecutive pattern-driven frames in a constant configuration -/

theorem regenerate_stable (timescale : ℚ) (maxFps : Int) (fps : ℚ) (P : List Nat) (j : Nat)
    (h : j % 1000 = 0 ∨ P = GeneratePattern fps timescale) :
    regenerate (stableStatics timescale maxFps P j) timescale maxFps fps =
      (stableStatics timescale maxFps (GeneratePattern fps timescale) j,
        if j % 1000 = 0 then [(fps, timescale)] else []) := by
  unfold regenerate stableStatics
  simp only [ne_eq, not_true_eq_false, or_self, if_false]
  by_cases hj : j % 1000 = 0
  · simp [hj]
  · rcases h with h | h
    · exact absurd h hj
    · simp [hj, ← h]

theorem calculatePlaybackDelta_stable (timescale : ℚ) (maxFps : Int) (fps : ℚ) (P : List Nat)
    (j : Nat) (f : Frame) (h : j % 1000 = 0 ∨ P = GeneratePattern fps timescale)
    (hj : j + 1 < sizeMod) (hf : PatternDriven timescale maxFps fps f) :
    CalculatePlaybackDelta (some (stableStatics timescale maxFps P j)) f =
      stableOutcome timescale maxFps fps (GeneratePattern fps timescale) j f := by
  rw [calculatePlaybackDelta_patternDriven _ f timescale maxFps fps hf]
  simp only [Option.getD_some]
  rw [regenerate_stable timescale maxFps fps P j h]
  unfold stableOutcome readStep stableStatics
  simp only [Nat.mod_eq_of_lt hj]
  split <;> rfl

theorem calculatePlaybackDelta_first (timescale : ℚ) (maxFps : Int) (fps : ℚ) (f : Frame)
    (hf : PatternDriven timescale maxFps fps f) :
    CalculatePlaybackDelta none f =
      stableOutcome timescale maxFps fps (GeneratePattern fps timescale) 0 f := by
  have h := calculatePlaybackDelta_stable timescale maxFps fps (List.replicate patternSize 0) 0 f
    (Or.inl rfl) (by decide) hf
  rw [← h]
  rw [calculatePlaybackDelta_patternDriven none f timescale maxFps fps hf,
    calculatePlaybackDelta_patternDriven _ f timescale maxFps fps hf]
  rfl

theorem runFrames_stable (timescale : ℚ) (maxFps : Int) (fps : ℚ) (frames : List Frame) :
    ∀ (P : List Nat) (j : Nat), (j % 1000 = 0 ∨ P = GeneratePattern fps timescale) →
      j + frames.length < sizeMod → (∀ f ∈ frames, PatternDriven timescale maxFps fps f) →
      runFrames (some (stableStatics timescale maxFps P j)) frames =
        (frames.enumFrom j).map
          (fun p => stableOutcome timescale maxFps fps (GeneratePattern fps timescale) p.1 p.2) := by
  induction frames with
  | nil => intro P j _ _ _; rfl
  | cons f fs ih =>
    intro P j h hj hf
    simp only [List.length_cons] at hj
    have hstep := calculatePlaybackDelta_stable timescale maxFps fps P j f h (by omega)
      (hf f (List.mem_cons_self f fs))
    simp only [runFrames, List.enumFrom_cons, List.map_cons]
    rw [hstep]
    congr 1
    exact ih (GeneratePattern fps timescale) (j + 1) (Or.inr rfl) (by omega)
      (fun g hg => hf g (List.mem_cons_of_mem f hg))

theorem runFrames_none (timescale : ℚ) (maxFps : Int) (fps : ℚ) (frames : List Frame)
    (hlen : frames.length < sizeMod) (hf : ∀ f ∈ frames, PatternDriven timescale maxFps fps f) :
    runFrames none frames =
      (frames.enumFrom 0).map
        (fun p => stableOutcome timescale maxFps fps (GeneratePattern fps timescale) p.1 p.2) := by
  cases frames with
  | nil => rfl
  | cons f fs =>
    simp only [List.length_cons] at hlen
    simp only [runFrames, List.enumFrom_cons, List.map_cons]
    rw [calculatePlaybackDelta_first timescale maxFps fps f (hf f (List.mem_cons_self f fs))]
    congr 1
    exact runFrames_stable timescale maxFps fps fs (GeneratePattern fps timescale) (0 + 1)
      (Or.inr rfl) (by omega) (fun g hg => hf g (List.mem_cons_of_mem f hg))

/-- Runs that start at cursor 0: at program start, or with the configuration already observed. -/
theorem runFrames_from_zero (timescale : ℚ) (maxFps : Int) (fps : ℚ) (frames : List Frame)
    (s : Option PatternStatics) (P : List Nat)
    (hs : s = none ∨ s = some (stableStatics timescale maxFps P 0))
    (hlen : frames.length < sizeMod) (hf : ∀ f ∈ frames, PatternDriven timescale maxFps fps f) :
    runFrames s frames =
      (frames.enumFrom 0).map
        (fun p => stableOutcome timescale maxFps fps (GeneratePattern fps timescale) p.1 p.2) := by
  rcases hs with hs | hs
  · rw [hs]; exact runFrames_none timescale maxFps fps frames hlen hf
  · rw [hs]
    exact runFrames_stable timescale maxFps fps frames P 0 (Or.inl rfl) (by omega) hf

theorem sum_generateCalls_stable (timescale : ℚ) (maxFps : Int) (fps : ℚ) (P : List Nat)
    (frames : List Frame) :
    ∀ j, (((frames.enumFrom j).map
        (fun p => stableOutcome timescale maxFps fps P p.1 p.2)).map
        (fun o => o.generateCalls.length)).sum
      = (j + frames.length + 999) / 1000 - (j + 999) / 1000 := by
  induction frames with
  | nil => intro j; simp
  | cons f fs ih =>
    intro j
    simp only [List.enumFrom_cons, List.map_cons, List.sum_cons, List.length_cons]
    rw [ih (j + 1)]
    unfold stableOutcome
    by_cases hj : j % 1000 = 0
    · simp only [hj, if_true, List.length_singleton]
      omega
    · simp only [hj, if_false, List.length_nil]
      omega

theorem getElem?_stable (timescale : ℚ) (maxFps : Int) (fps : ℚ) (P : List Nat)
    (frames : List Frame) (i : Nat) (o : Outcome)
    (h : ((frames.enumFrom 0).map
        (fun p => stableOutcome timescale maxFps fps P p.1 p.2))[i]? = some o) :
    ∃ f, frames[i]? = some f ∧ o = stableOutcome timescale maxFps fps P i f := by
  rw [List.getElem?_map, List.getElem?_enumFrom] at h
  cases hfi : frames[i]? with
  | none => rw [hfi] at h; simp at h
  | some f =>
    rw [hfi] at h
    simp only [Option.map_some', Nat.zero_add, Option.some.injEq] at h
    exact ⟨f, rfl, h.symm⟩

/-- C6 (regeneration triggers): over `2 * N` consecutive pattern-driven frames from program
start, with constant `timescale`, `com_maxfps` and measured frame rate, `GeneratePattern` is
called exactly twice, on frame 1 and on frame `N + 1` (cursor 0 and cursor `N`), both times
with the same arguments; after every frame the pattern in the statics is the one generated
for these arguments, and no other frame regenerates it. -/
theorem regeneration_twice_in_two_cycles (timescale : ℚ) (maxFps : Int) (fps : ℚ)
    (frames : List Frame) (hlen : frames.length = 2 * patternSize)
    (hf : ∀ f ∈ frames, PatternDriven timescale maxFps fps f) :
    ((runFrames none frames).map (fun o => o.generateCalls.length)).sum = 2 ∧
    (∀ i o, (runFrames none frames)[i]? = some o →
      o.generateCalls = (if i = 0 ∨ i = patternSize then [(fps, timescale)] else []) ∧
      ∃ st, o.statics = some st ∧ st.pattern = GeneratePattern fps timescale ∧
        st.patternIndex = i + 1) := by
  have hlen2 : frames.length = 2000 := by rw [hlen]; rfl
  have hrun := runFrames_none timescale maxFps fps frames
    (by rw [hlen2]; decide) hf
  rw [hrun]
  constructor
  · rw [sum_generateCalls_stable, hlen2]
  · intro i o hio
    obtain ⟨f, hfi, ho⟩ := getElem?_stable timescale maxFps fps _ frames i o hio
    have hi : i < 2000 := by
      have := (List.getElem?_eq_some.mp hfi).1
      omega
    subst ho
    unfold stableOutcome stableStatics patternSize
    refine ⟨?_, _, rfl, rfl, rfl⟩
    by_cases h0 : i % 1000 = 0
    · have : i = 0 ∨ i = 1000 := by omega
      simp [h0, this]
    · have : ¬ (i = 0 ∨ i = 1000) := by omega
      simp [h0, this]

theorem slowFrame_patternDriven : PatternDriven (1 / 2) 250 250 slowFrame :=
  ⟨Or.inr ⟨rfl, rfl, rfl⟩, rfl, by decide, rfl, by norm_num, rfl, rfl⟩

theorem regeneration_twice_in_two_cycles_witness :
    ((runFrames none (List.replicate 2000 slowFrame)).map
      (fun o => o.generateCalls.length)).sum = 2 :=
  (regeneration_twice_in_two_cycles (1 / 2) 250 250 (List.replicate 2000 slowFrame)
    (List.length_replicate 2000 slowFrame)
    (fun f hf => by rw [(List.mem_replicate.mp hf).2]; exact slowFrame_patternDriven)).1

/-! ## One full cycle of slow motion -/

theorem sum_steps_enumFrom (Q : List Nat) (hQ : Q.length = 1000) (frames : List Frame) :
    ∀ j, j + frames.length = 1000 →
      ((frames.enumFrom j).map (fun p => ((Q.getD (p.1 % 1000) 0 : Nat) : Int))).sum
        = (((Q.drop j).sum : Nat) : Int) := by
  induction frames with
  | nil =>
    intro j hj
    simp only [List.length_nil, Nat.add_zero] at hj
    rw [List.drop_eq_nil_of_le (by omega)]
    simp
  | cons f fs ih =>
    intro j hj
    simp only [List.length_cons] at hj
    have hjlt : j < Q.length := by omega
    simp only [List.enumFrom_cons, List.map_cons, List.sum_cons]
    rw [ih (j + 1) (by omega), List.drop_eq_getElem_cons hjlt, List.sum_cons,
      Nat.mod_eq_of_lt (by omega), List.getD_eq_getElem Q 0 hjlt]
    push_cast
    rfl

theorem GeneratePattern_length (fps timescale : ℚ) :
    (GeneratePattern fps timescale).length = 1000 :=
  patternOfRate_length _

theorem GeneratePattern_sum (fps timescale : ℚ) :
    (GeneratePattern fps timescale).sum = 1000000 / callCountPerSecond fps timescale :=
  patternOfRate_sum _ (callCountPerSecond_range fps timescale).1
    (callCountPerSecond_range fps timescale).2

/-- Sum of the values returned over one cycle of pattern-driven frames without frozen tick,
from cursor 0, at a non-zero `timescale`. -/
theorem cycle_sum (timescale : ℚ) (maxFps : Int) (fps : ℚ) (frames : List Frame)
    (s : Option PatternStatics) (P : List Nat) (_hts : timescale ≠ 0)
    (hs : s = none ∨ s = some (stableStatics timescale maxFps P 0))
    (hlen : frames.length = 1000)
    (hf : ∀ f ∈ frames, PatternDriven timescale maxFps fps f ∧ f.frozenTick = none) :
    ((runFrames s frames).map (fun o => o.ret)).sum =
      ((1000000 / callCountPerSecond fps timescale : Nat) : Int) := by
  rw [runFrames_from_zero timescale maxFps fps frames s P hs (by rw [hlen]; decide)
    (fun f h => (hf f h).1), List.map_map]
  have hcongr : (frames.enumFrom 0).map
      ((fun o => o.ret) ∘
        (fun p => stableOutcome timescale maxFps fps (GeneratePattern fps timescale) p.1 p.2))
      = (frames.enumFrom 0).map
        (fun p => (((GeneratePattern fps timescale).getD (p.1 % 1000) 0 : Nat) : Int)) := by
    apply List.map_congr_left
    intro p hp
    have hmem : p.2 ∈ frames := by
      have h2 : (p.1, p.2) ∈ frames.enumFrom 0 := hp
      have h3 := List.mem_enumFrom h2
      rw [h3.2.2]
      exact List.getElem_mem _
    have hnf := (hf p.2 hmem).2
    simp [stableOutcome, hnf]
  rw [hcongr, sum_steps_enumFrom _ (GeneratePattern_length fps timescale) frames 0 (by omega),
    List.drop_zero, GeneratePattern_sum]

theorem f32_hundredth : f32 (1 / 100) = 5368709 / 536870912 := by
  have := f32_eq_of_bounds (1 / 100) (-7) 10737418 (by norm_num) (by norm_num) (by norm_num)
    (by rw [abs_lt]; constructor <;> norm_num)
  rw [this]; norm_num

theorem toSizeT_natCast (n : Nat) : toSizeT (n : ℚ) = n := by
  unfold toSizeT
  have : ⌊(n : ℚ)⌋ = (n : ℤ) := by exact_mod_cast Int.floor_intCast (n : ℤ)
  rw [this]; simp

theorem callCount_scenario : callCountPerSecond 500 (f32 (1 / 100)) = 50000 := by
  unfold callCountPerSecond
  rw [f32_hundredth]
  have h := f32_eq_of_bounds (500 / (5368709 / 536870912)) 15 12800000 (by norm_num)
    (by norm_num) (by norm_num) (by rw [abs_lt]; constructor <;> norm_num)
  rw [h]
  have e : ((12800000 : ℤ) : ℚ) * (2 : ℚ) ^ ((15 : ℤ) - 23) = ((50000 : ℕ) : ℚ) := by norm_num
  rw [e]
  have hc : clampF ((50000 : ℕ) : ℚ) 1000 1000000 = ((50000 : ℕ) : ℚ) := by
    unfold clampF
    norm_num
  rw [hc, toSizeT_natCast]

theorem callCount_halfSpeed : callCountPerSecond (2001 / 4) (1 / 2) = 1000 := by
  unfold callCountPerSecond
  have e : (2001 / 4 : ℚ) / (1 / 2) = ((2001 : ℕ) : ℚ) / 2 ^ 1 := by norm_num
  rw [e, f32_dyadic 2001 1 (by norm_num)]
  have hc : clampF (((2001 : ℕ) : ℚ) / 2 ^ 1) 1000 1000000 = 2001 / 2 := by
    unfold clampF
    norm_num
  rw [hc]
  exact toSizeT_eq (2001 / 2) 1000 (by norm_num) (by norm_num)

/-- C7 (amended): from cursor 0 (program start, or the configuration already observed), the
values returned by `N = 1000` consecutive pattern-driven calls without frozen tick, at
constant non-zero `timescale`, constant `com_maxfps` and constant measured frame rate, sum
to exactly `N * N / c` ms, where `c = callCountPerSecond` is
`clamp(fps / timescale, 1000, 1000000)` truncated to an integer; for `timescale` 0.01 (as a
`float`) and frame rate 500 that is 20 ms per 1000 frames.  The hypothesis `timescale ≠ 0`
keeps the quotient `fps / timescale` a float division without division by zero, as the
formula of the claim presupposes. -/
theorem slow_motion_cycle_sum (timescale : ℚ) (maxFps : Int) (fps : ℚ) (frames : List Frame)
    (s : Option PatternStatics) (P : List Nat) (_hts : timescale ≠ 0)
    (hs : s = none ∨ s = some (stableStatics timescale maxFps P 0))
    (hlen : frames.length = patternSize)
    (hf : ∀ f ∈ frames, PatternDriven timescale maxFps fps f ∧ f.frozenTick = none) :
    ((runFrames s frames).map (fun o => o.ret)).sum =
      ((patternSize * patternSize / callCountPerSecond fps timescale : Nat) : Int) ∧
    callCountPerSecond fps timescale = toSizeT (clampF (f32 (fps / timescale)) 1000 1000000) ∧
    (timescale = f32 (1 / 100) → fps = 500 →
      ((runFrames s frames).map (fun o => o.ret)).sum = 20) := by
  have h := cycle_sum timescale maxFps fps frames s P _hts hs hlen hf
  refine ⟨h, rfl, ?_⟩
  intro h1 h2
  rw [h, h1, h2, callCount_scenario]
  rfl

theorem slow_motion_cycle_sum_witness :
    ((runFrames none (List.replicate 1000 slowFrame)).map (fun o => o.ret)).sum =
      ((patternSize * patternSize / callCountPerSecond 250 (1 / 2) : Nat) : Int) :=
  (slow_motion_cycle_sum (1 / 2) 250 250 (List.replicate 1000 slowFrame) none []
    (by norm_num) (Or.inl rfl) (List.length_replicate 1000 slowFrame)
    (fun f hf => by
      rw [(List.mem_replicate.mp hf).2]; exact ⟨slowFrame_patternDriven, rfl⟩)).1

theorem halfSpeedFrame_patternDriven : PatternDriven (1 / 2) 1000 (2001 / 4) halfSpeedFrame :=
  ⟨Or.inr ⟨rfl, rfl, rfl⟩, rfl, by decide, rfl, by norm_num, rfl, rfl⟩

/-- C7, as stated, fails: at `timescale` 0.5 and a measured frame rate of 500.25 the clamp
leaves 1000.5, the code truncates it to 1000 and the 1000 frames of a cycle return 1000 ms
in total, while `floor(N * N / clamp(fps / timescale, 1000, 1000000))` is 999. -/
theorem slow_motion_cycle_sum_counterexample :
    ((runFrames none (List.replicate 1000 halfSpeedFrame)).map (fun o => o.ret)).sum = 1000 ∧
    ⌊(1000000 : ℚ) / clampF ((2001 / 4) / (1 / 2)) 1000 1000000⌋ = 999 := by
  constructor
  · rw [cycle_sum (1 / 2) 1000 (2001 / 4) (List.replicate 1000 halfSpeedFrame) none []
      (by norm_num) (Or.inl rfl) (List.length_replicate 1000 halfSpeedFrame)
      (fun f hf => by
        rw [(List.mem_replicate.mp hf).2]; exact ⟨halfSpeedFrame_patternDriven, rfl⟩),
      callCount_halfSpeed]
    rfl
  · have hc : clampF ((2001 / 4) / (1 / 2)) 1000 1000000 = 2001 / 2 := by
      unfold clampF
      norm_num
    rw [hc, Int.floor_eq_iff]
    norm_num

/-! ## The first step of a fresh pattern -/

theorem patternOfRate_first (c : Nat) :
    (patternOfRate c).getD 0 0 = 1 ↔ zerosCountOf c < onesCountOf c :=
  fillPattern_head (onesCountOf c) (zerosCountOf c) 999

theorem patternOfRate_last (c : Nat) (h1 : 1000 ≤ c) (h2 : c ≤ 1000000) :
    (patternOfRate c).getD 999 0 = 1 := by
  have hO := onesCountOf_pos c h1 h2
  have hsum := ones_add_zeros c h1 h2
  exact fillPattern_getLast (onesCountOf c) (zerosCountOf c) 999 0 0 (Nat.zero_le _)
    (Nat.zero_le _) (fun h => by omega) (by rw [hsum]; rfl)

theorem patternOfRate_first_low (c : Nat) (h1 : 1000 ≤ c) (h2 : c ≤ 1000000)
    (hlow : onesCountOf c ≤ patternSize / 2) : (patternOfRate c).getD 0 0 = 0 := by
  have hsum := ones_add_zeros c h1 h2
  have hne : ¬ (patternOfRate c).getD 0 0 = 1 := by
    rw [patternOfRate_first]
    unfold patternSize at hlow hsum
    omega
  rcases getD_zero_or_one (patternOfRate c) 0 (patternOfRate_mem c) with h | h
  · exact h
  · exact absurd h hne

theorem regenerate_changed (st : PatternStatics) (timescale : ℚ) (maxFps : Int) (fps : ℚ)
    (h : st.lastTimeScale ≠ timescale ∨ st.lastMaxFps ≠ maxFps) :
    regenerate st timescale maxFps fps =
      ({ lastTimeScale := timescale, lastMaxFps := maxFps,
         pattern := GeneratePattern (selectFrameRate st.lastMaxFps maxFps fps) timescale,
         patternIndex := 0 },
       [(selectFrameRate st.lastMaxFps maxFps fps, timescale)]) := by
  unfold regenerate
  rw [if_pos h]

theorem calculatePlaybackDelta_changed (st : PatternStatics) (f : Frame) (timescale : ℚ)
    (maxFps : Int) (hf : PatternDriven timescale maxFps f.framerate f)
    (h : st.lastTimeScale ≠ timescale ∨ st.lastMaxFps ≠ maxFps) :
    (CalculatePlaybackDelta (some st) f).generateCalls =
      [(selectFrameRate st.lastMaxFps maxFps f.framerate, timescale)] ∧
    advance f (CalculatePlaybackDelta (some st) f) =
      (((GeneratePattern (selectFrameRate st.lastMaxFps maxFps f.framerate) timescale).getD 0 0
        : Nat) : Int) ∧
    ((CalculatePlaybackDelta (some st) f).ret = 0 ∨
      (CalculatePlaybackDelta (some st) f).ret =
        (((GeneratePattern (selectFrameRate st.lastMaxFps maxFps f.framerate) timescale).getD 0 0
          : Nat) : Int)) := by
  rw [calculatePlaybackDelta_patternDriven _ f timescale maxFps f.framerate hf]
  simp only [Option.getD_some]
  rw [regenerate_changed st timescale maxFps f.framerate h]
  unfold advance readStep
  cases hz : f.frozenTick.isSome <;> simp [hz]

/-- C10 (first step after a configuration change): in every generated pattern step 0 is 1
exactly when `onesCount > zerosCount`, and the last step (index `N - 1`) is 1; hence a
pattern-driven frame that finds `timescale` or `com_maxfps` changed regenerates the pattern
and advances by step 0 of the fresh pattern, which is 0 whenever `onesCount ≤ N / 2`; any
sequence of such frames, however long, returns 0 ms in total (and hands 0 ms in total to the
frozen-tick accumulator). -/
theorem first_step_after_change (c : Nat) (h1 : 1000 ≤ c) (h2 : c ≤ 1000000) :
    ((patternOfRate c).getD 0 0 = 1 ↔ zerosCountOf c < onesCountOf c) ∧
    (1 ≤ onesCountOf c → (patternOfRate c).getD (patternSize - 1) 0 = 1) ∧
    (∀ (st : PatternStatics) (f : Frame) (timescale : ℚ) (maxFps : Int),
      PatternDriven timescale maxFps f.framerate f →
      (st.lastTimeScale ≠ timescale ∨ st.lastMaxFps ≠ maxFps) →
      (CalculatePlaybackDelta (some st) f).generateCalls =
        [(selectFrameRate st.lastMaxFps maxFps f.framerate, timescale)] ∧
      advance f (CalculatePlaybackDelta (some st) f) =
        (((GeneratePattern (selectFrameRate st.lastMaxFps maxFps f.framerate) timescale).getD 0 0
          : Nat) : Int) ∧
      (onesCountOf (callCountPerSecond (selectFrameRate st.lastMaxFps maxFps f.framerate)
          timescale) ≤ patternSize / 2 →
        advance f (CalculatePlaybackDelta (some st) f) = 0 ∧
        (CalculatePlaybackDelta (some st) f).ret = 0)) ∧
    (∀ (s : Option PatternStatics) (frames : List Frame), ChangesWithLowDuty s frames →
      ((runFrames s frames).map (fun o => o.ret)).sum = 0 ∧
      ((frames.zip (runFrames s frames)).map (fun p => advance p.1 p.2)).sum = 0) := by
  refine ⟨patternOfRate_first c, fun _ => patternOfRate_last c h1 h2, ?_, ?_⟩
  · intro st f timescale maxFps hf hch
    obtain ⟨hg, ha, hr⟩ := calculatePlaybackDelta_changed st f timescale maxFps hf hch
    refine ⟨hg, ha, ?_⟩
    intro hlow
    have hz : (GeneratePattern (selectFrameRate st.lastMaxFps maxFps f.framerate)
        timescale).getD 0 0 = 0 :=
      patternOfRate_first_low _ (callCountPerSecond_range _ _).1
        (callCountPerSecond_range _ _).2 hlow
    rw [hz] at ha hr
    exact ⟨ha, by rcases hr with hr | hr <;> exact hr⟩
  · intro s frames
    induction frames generalizing s with
    | nil => intro _; simp [runFrames]
    | cons f fs ih =>
      intro hch
      obtain ⟨⟨st, timescale, maxFps, hs, hf, hne, hlow⟩, hrest⟩ := hch
      obtain ⟨ih1, ih2⟩ := ih _ hrest
      subst hs
      obtain ⟨_, ha, hr⟩ := calculatePlaybackDelta_changed st f timescale maxFps hf hne
      have hz : (GeneratePattern (selectFrameRate st.lastMaxFps maxFps f.framerate)
          timescale).getD 0 0 = 0 :=
        patternOfRate_first_low _ (callCountPerSecond_range _ _).1
          (callCountPerSecond_range _ _).2 hlow
      rw [hz] at ha hr
      have hr0 : (CalculatePlaybackDelta (some st) f).ret = 0 := by
        rcases hr with hr | hr <;> exact hr
      simp only [runFrames, List.map_cons, List.sum_cons, List.zip_cons_cons]
      rw [ih1, ih2, hr0, ha]
      exact ⟨rfl, rfl⟩

theorem first_step_after_change_witness :
    ((patternOfRate 50000).getD 0 0 = 1 ↔ zerosCountOf 50000 < onesCountOf 50000) ∧
    (1 ≤ onesCountOf 50000 → (patternOfRate 50000).getD (patternSize - 1) 0 = 1) :=
  ⟨(first_step_after_change 50000 (by decide) (by decide)).1,
   (first_step_after_change 50000 (by decide) (by decide)).2.1⟩

/-! ## The tick-delta controller -/

theorem skipForward_calls {σ : Type} (G : GameInterface σ) (w : World σ) (ticks : Int)
    (ign : Bool) :
    (SkipForward G w ticks ign).calls = w.calls ++
      [if !ign && (G.IsTickFrozen w.game).isSome then Call.updateFrozenTick false ticks
       else Call.writeRealtime (toInt32 (G.realtime w.game + ticks))] ∧
    (SkipForward G w ticks ign).isPlaybackPaused = w.isPlaybackPaused := by
  unfold SkipForward
  split <;> exact ⟨rfl, rfl⟩

/-- C8 (deadzone policy): for every deadzone `≥ 0`, `SetTickDelta` calls `Rewinding::RewindBy`
(with the value it was given) exactly when `value < -deadzone`, or `value < 0` and
`ignoreDeadzone` is set; for `-deadzone ≤ value ≤ 0` without the override nothing happens:
no call is made and the world is unchanged.  With deadzone 5, `SetTickDelta(-3, false)` does
nothing and `SetTickDelta(-3, true)` calls `RewindBy(-3)`, a rewind by 3 ticks. -/
theorem setTickDelta_deadzone {σ : Type} (G : GameInterface σ) (H : PlaybackHeader)
    (w : World σ) (value : Int) (ignoreDeadzone : Bool) (hd : 0 ≤ H.REWIND_DEADZONE) :
    ((∃ t, (SetTickDelta G H w value ignoreDeadzone).calls = w.calls ++ [Call.rewindBy t]) ↔
      (value < -H.REWIND_DEADZONE ∨ (value < 0 ∧ ignoreDeadzone = true))) ∧
    ((value < -H.REWIND_DEADZONE ∨ (value < 0 ∧ ignoreDeadzone = true)) →
      SetTickDelta G H w value ignoreDeadzone = w.call G (Call.rewindBy value)) ∧
    (-H.REWIND_DEADZONE ≤ value → value ≤ 0 → ignoreDeadzone = false →
      SetTickDelta G H w value ignoreDeadzone = w) ∧
    (H.REWIND_DEADZONE = 5 →
      SetTickDelta G H w (-3) false = w ∧
      SetTickDelta G H w (-3) true = w.call G (Call.rewindBy (-3))) := by
  have hrew : (value < -H.REWIND_DEADZONE ∨ (value < 0 ∧ ignoreDeadzone = true)) →
      SetTickDelta G H w value ignoreDeadzone = w.call G (Call.rewindBy value) := by
    intro hc
    have h1 : ¬ value > 0 := by
      rcases hc with hc | hc <;> omega
    unfold SetTickDelta
    rw [if_neg h1, if_pos hc]
  refine ⟨⟨?_, ?_⟩, hrew, ?_, ?_⟩
  · rintro ⟨t, ht⟩
    by_contra hc
    unfold SetTickDelta at ht
    rw [if_neg hc] at ht
    by_cases h1 : value > 0
    · rw [if_pos h1, (skipForward_calls G w value H.ignoreFrozenTickDefault).1] at ht
      have h2 := List.append_cancel_left ht
      split at h2 <;> simp at h2
    · rw [if_neg h1] at ht
      have h2 : w.calls ++ [] = w.calls ++ [Call.rewindBy t] := by
        rw [List.append_nil]; exact ht
      have h3 := List.append_cancel_left h2
      simp at h3
  · intro hc
    exact ⟨value, by rw [hrew hc]; rfl⟩
  · intro h1 h2 h3
    unfold SetTickDelta
    have h4 : ¬ value > 0 := by omega
    have h5 : ¬ (value < -H.REWIND_DEADZONE ∨ (value < 0 ∧ ignoreDeadzone = true)) := by
      intro hc
      rcases hc with hc | hc
      · omega
      · rw [h3] at hc; exact Bool.noConfusion hc.2
    rw [if_neg h4, if_neg h5]
  · intro h5
    constructor
    · unfold SetTickDelta
      have h4 : ¬ ((-3 : Int) > 0) := by decide
      have h6 : ¬ ((-3 : Int) < -H.REWIND_DEADZONE ∨ ((-3 : Int) < 0 ∧ false = true)) := by
        rw [h5]; decide
      rw [if_neg h4, if_neg h6]
    · unfold SetTickDelta
      have h4 : ¬ ((-3 : Int) > 0) := by decide
      have h6 : ((-3 : Int) < -H.REWIND_DEADZONE ∨ ((-3 : Int) < 0 ∧ true = true)) :=
        Or.inr ⟨by decide, rfl⟩
      rw [if_neg h4, if_pos h6]

theorem setTickDelta_deadzone_witness :
    SetTickDelta simInterface deadzoneFive simWorld (-3) false = simWorld ∧
    SetTickDelta simInterface deadzoneFive simWorld (-3) true =
      simWorld.call simInterface (Call.rewindBy (-3)) :=
  (setTickDelta_deadzone simInterface deadzoneFive simWorld (-3) false (by decide)).2.2.2 rfl

end IWXMVM.Components.Playback
